import Mathlib

/-!
Verification development for the monedero-mesh client: the `Cipher`
keystore (`cipher/src/cipher.rs`) and the RPC parameter layer
(`sessions/src/rpc/params.rs` and friends), shallowly embedded in Lean.

Bytes are modelled as `Nat` values below 256 (the predicate `ValidBytes`),
machine integers as `Nat`/`Int` with explicit reductions.  The third-party
cryptographic crates (`chacha20poly1305`, `sha2`, `hkdf`, `x25519_dalek`,
`data_encoding`) are not part of the repository source; they are modelled
from the specification's bit-exact descriptions (ChaCha20-Poly1305 per
RFC 8439, HKDF-SHA256 per RFC 5869, X25519 per RFC 7748, standard base64).
Rust panics (out-of-bounds slicing, `unwrap`) are modelled explicitly by
the `PanicOr` result type.
-/

/-- Result of a Rust computation that may panic (index out of bounds,
`unwrap` on `Err`/`None`).  A `PanicOr` value is either a normal result or
a panic carrying the panic message. -/
inductive PanicOr (α : Type) where
  | panic (msg : String)
  | ok (val : α)
  deriving DecidableEq, Repr

/-- Validity of a byte list: every element is an 8-bit value. -/
def ValidBytes (l : List Nat) : Prop := ∀ b ∈ l, b < 256

instance : DecidablePred ValidBytes := fun l =>
  inferInstanceAs (Decidable (∀ b ∈ l, b < 256))

/-- Decidable equality for `Except` results. -/
instance {ε α : Type} [DecidableEq ε] [DecidableEq α] : DecidableEq (Except ε α)
  | .ok a, .ok b =>
    if h : a = b then .isTrue (by rw [h]) else .isFalse (by intro hc; cases hc; exact h rfl)
  | .error a, .error b =>
    if h : a = b then .isTrue (by rw [h]) else .isFalse (by intro hc; cases hc; exact h rfl)
  | .ok _, .error _ => .isFalse (by intro hc; cases hc)
  | .error _, .ok _ => .isFalse (by intro hc; cases hc)

/-- Little-endian interpretation of a byte list as a natural number. -/
def bytesToNatLE (l : List Nat) : Nat :=
  l.foldr (fun b acc => b + 256 * acc) 0

/-- Little-endian serialization of `n` into `len` bytes. -/
def natToBytesLE (len n : Nat) : List Nat :=
  (List.range len).map (fun i => (n >>> (8 * i)) % 256)

/-- Split a list into chunks of size `n + 1`; structural on a fuel
argument so that the kernel can unfold it. -/
def chunksFuel (n : Nat) : Nat → List Nat → List (List Nat)
  | 0, _ => []
  | _, [] => []
  | Nat.succ fuel, a :: l => (a :: l).take (n + 1) :: chunksFuel n fuel (l.drop n)

/-- Split a list into chunks of size `n + 1`. -/
def chunks1 (n : Nat) (l : List Nat) : List (List Nat) := chunksFuel n l.length l

/-- Lowercase hexadecimal alphabet, as used by
`data_encoding::HEXLOWER_PERMISSIVE.encode`. -/
def hexDigits : List Char := ("0123456789abcdef").toList

/-- Lowercase hex encoding of a byte list
(`data_encoding::HEXLOWER_PERMISSIVE.encode`). -/
def hexEncode (l : List Nat) : String :=
  String.mk (l.flatMap (fun b => [hexDigits.getD (b / 16) '0', hexDigits.getD (b % 16) '0']))

/-- Value of one hex digit; permissive, accepting both cases
(`HEXLOWER_PERMISSIVE`). -/
def hexDigitVal (c : Char) : Option Nat :=
  if '0' ≤ c ∧ c ≤ '9' then some (c.toNat - '0'.toNat)
  else if 'a' ≤ c ∧ c ≤ 'f' then some (c.toNat - 'a'.toNat + 10)
  else if 'A' ≤ c ∧ c ≤ 'F' then some (c.toNat - 'A'.toNat + 10)
  else none

/-- Permissive hex decoding of a character list
(`data_encoding::HEXLOWER_PERMISSIVE.decode`); `none` on odd length or a
non-hex character. -/
def hexDecodeChars : List Char → Option (List Nat)
  | [] => some []
  | [_] => none
  | c1 :: c2 :: rest =>
    match hexDigitVal c1, hexDigitVal c2, hexDecodeChars rest with
    | some h, some lo, some tl => some ((h * 16 + lo) :: tl)
    | _, _, _ => none

/-- Permissive hex decoding of a string. -/
def hexDecode (s : String) : Option (List Nat) := hexDecodeChars s.data

/-! ## Base64 (standard alphabet with `+`, `/` and `=` padding), modelling
`data_encoding::BASE64`. -/

/-- The standard base64 alphabet. -/
def b64Alphabet : List Char :=
  ("ABCDEFGHIJKLMNOPQRSTUVWXYZabcdefghijklmnopqrstuvwxyz0123456789+/").toList

/-- Character for a 6-bit value. -/
def b64Char (n : Nat) : Char := b64Alphabet.getD n '?'

/-- 6-bit value of a base64 character. -/
def b64Val (c : Char) : Option Nat :=
  if 'A' ≤ c ∧ c ≤ 'Z' then some (c.toNat - 'A'.toNat)
  else if 'a' ≤ c ∧ c ≤ 'z' then some (c.toNat - 'a'.toNat + 26)
  else if '0' ≤ c ∧ c ≤ '9' then some (c.toNat - '0'.toNat + 52)
  else if c = '+' then some 62
  else if c = '/' then some 63
  else none

/-- Base64 encoding of a byte list, three bytes at a time with `=`
padding. -/
def b64Encode : List Nat → List Char
  | a :: b :: c :: rest =>
    b64Char (a / 4) :: b64Char ((a % 4) * 16 + b / 16) ::
      b64Char ((b % 16) * 4 + c / 64) :: b64Char (c % 64) :: b64Encode rest
  | [a, b] => [b64Char (a / 4), b64Char ((a % 4) * 16 + b / 16), b64Char ((b % 16) * 4), '=']
  | [a] => [b64Char (a / 4), b64Char ((a % 4) * 16), '=', '=']
  | [] => []

/-- Base64 decoding, four characters at a time; rejects non-alphabet
characters, misplaced padding and non-canonical trailing bits, as
`data_encoding::BASE64.decode` does. -/
def b64Decode : List Char → Except Unit (List Nat)
  | [] => .ok []
  | c1 :: c2 :: c3 :: c4 :: rest =>
    match b64Val c1, b64Val c2 with
    | some s1, some s2 =>
      if c3 = '=' then
        if c4 = '=' ∧ rest = [] ∧ s2 % 16 = 0 then .ok [s1 * 4 + s2 / 16]
        else .error ()
      else
        match b64Val c3 with
        | some s3 =>
          if c4 = '=' then
            if rest = [] ∧ s3 % 4 = 0 then
              .ok [s1 * 4 + s2 / 16, (s2 % 16) * 16 + s3 / 4]
            else .error ()
          else
            match b64Val c4 with
            | some s4 =>
              match b64Decode rest with
              | .ok tl =>
                .ok ((s1 * 4 + s2 / 16) :: ((s2 % 16) * 16 + s3 / 4) ::
                  ((s3 % 4) * 64 + s4) :: tl)
              | .error e => .error e
            | none => .error ()
        | none => .error ()
    | _, _ => .error ()
  | _ => .error ()

/-! ## ChaCha20-Poly1305 (RFC 8439), modelling the `chacha20poly1305`
crate used by `Cipher` for the per-topic AEAD. -/

/-- 32-bit left rotation. -/
def rotl32 (n x : Nat) : Nat := ((x <<< n) ||| (x >>> (32 - n))) % 2 ^ 32

/-- Little-endian: 4 bytes to a 32-bit word. -/
def word32LE : List Nat → Nat
  | [a, b, c, d] => a + 256 * (b + 256 * (c + 256 * d))
  | _ => 0

/-- Little-endian serialization of a 32-bit word. -/
def word32ToBytesLE (x : Nat) : List Nat :=
  [x % 256, (x >>> 8) % 256, (x >>> 16) % 256, (x >>> 24) % 256]

/-- ChaCha20 quarter round on state positions `ia ib ic idx`. -/
def qround (st : List Nat) (ia ib ic idx : Nat) : List Nat :=
  let a := st.getD ia 0
  let b := st.getD ib 0
  let c := st.getD ic 0
  let d := st.getD idx 0
  let a1 := (a + b) % 2 ^ 32
  let d1 := rotl32 16 (d ^^^ a1)
  let c1 := (c + d1) % 2 ^ 32
  let b1 := rotl32 12 (b ^^^ c1)
  let a2 := (a1 + b1) % 2 ^ 32
  let d2 := rotl32 8 (d1 ^^^ a2)
  let c2 := (c1 + d2) % 2 ^ 32
  let b2 := rotl32 7 (b1 ^^^ c2)
  (((st.set ia a2).set ib b2).set ic c2).set idx d2

/-- One ChaCha20 double round: four column rounds then four diagonal
rounds. -/
def doubleRound (st : List Nat) : List Nat :=
  let st := qround st 0 4 8 12
  let st := qround st 1 5 9 13
  let st := qround st 2 6 10 14
  let st := qround st 3 7 11 15
  let st := qround st 0 5 10 15
  let st := qround st 1 6 11 12
  let st := qround st 2 7 8 13
  qround st 3 4 9 14

/-- Iterated double rounds (ChaCha20 runs ten of them). -/
def doubleRounds : Nat → List Nat → List Nat
  | 0, st => st
  | Nat.succ n, st => doubleRounds n (doubleRound st)

/-- The ChaCha20 block function: 32-byte key, block counter, 12-byte
nonce; yields 64 key-stream bytes. -/
def chachaBlock (key : List Nat) (counter : Nat) (nonce : List Nat) : List Nat :=
  let init := [0x61707865, 0x3320646e, 0x79622d32, 0x6b206574] ++
    (chunks1 3 key).map word32LE ++ [counter % 2 ^ 32] ++ (chunks1 3 nonce).map word32LE
  let mixed := doubleRounds 10 init
  (List.zipWith (fun a b => (a + b) % 2 ^ 32) mixed init).flatMap word32ToBytesLE

/-- Byte `i` of the ChaCha20 encryption key stream (the counter starts at
1; block 0 is reserved for the Poly1305 key). -/
def keystreamByte (key nonce : List Nat) (i : Nat) : Nat :=
  (chachaBlock key (1 + i / 64) nonce).getD (i % 64) 0

/-- First `n` bytes of the ChaCha20 encryption key stream. -/
def keystream (key nonce : List Nat) (n : Nat) : List Nat :=
  (List.range n).map (keystreamByte key nonce)

/-- Clamp the Poly1305 `r` part. -/
def polyClampR (r : Nat) : Nat := r &&& 0x0ffffffc0ffffffc0ffffffc0fffffff

/-- Poly1305 accumulator over 16-byte chunks: each chunk is read
little-endian, a 0x01 byte is appended, and the accumulator is multiplied
by `r` modulo `2^130 - 5`. -/
def polyAcc (r : Nat) (acc : Nat) : List (List Nat) → Nat
  | [] => acc
  | c :: rest =>
    polyAcc r ((acc + bytesToNatLE c + 2 ^ (8 * c.length)) * r % (2 ^ 130 - 5)) rest

/-- Poly1305 MAC with key parts `r` and `s`, as a 16-byte tag. -/
def poly1305Mac (r s : Nat) (msg : List Nat) : List Nat :=
  natToBytesLE 16 ((polyAcc (polyClampR r) 0 (chunks1 15 msg) + s) % 2 ^ 128)

/-- AEAD authenticated data for a ciphertext with empty AAD: the
ciphertext, zero padding to 16 bytes, and the two 64-bit lengths. -/
def macData (ct : List Nat) : List Nat :=
  ct ++ List.replicate ((16 - ct.length % 16) % 16) 0 ++
    natToBytesLE 8 0 ++ natToBytesLE 8 ct.length

/-- The Poly1305 tag of a ChaCha20-Poly1305 ciphertext: the one-time key
is the first 32 bytes of ChaCha20 block 0. -/
def tagOf (key nonce ct : List Nat) : List Nat :=
  let b0 := chachaBlock key 0 nonce
  poly1305Mac (bytesToNatLE (b0.take 16)) (bytesToNatLE ((b0.drop 16).take 16)) (macData ct)

/-- ChaCha20-Poly1305 encryption with empty AAD
(`ChaCha20Poly1305::encrypt`): ciphertext followed by the 16-byte tag. -/
def chachaEncrypt (key nonce pt : List Nat) : List Nat :=
  let ct := List.zipWith (fun a b => a ^^^ b) pt (keystream key nonce pt.length)
  ct ++ tagOf key nonce ct

/-- ChaCha20-Poly1305 decryption (`ChaCha20Poly1305::decrypt`): splits off
the 16-byte tag, verifies it, and decrypts; `Except.error` on a short
buffer or a tag mismatch. -/
def chachaDecrypt (key nonce data : List Nat) : Except Unit (List Nat) :=
  if data.length < 16 then .error ()
  else
    let ct := data.take (data.length - 16)
    let tg := data.drop (data.length - 16)
    if tagOf key nonce ct = tg then
      .ok (List.zipWith (fun a b => a ^^^ b) ct (keystream key nonce ct.length))
    else .error ()

/-! ## SHA-256, HMAC-SHA256, HKDF-SHA256 (RFC 6234 / RFC 5869), modelling
the `sha2` and `hkdf` crates used for session-key derivation. -/

/-- 32-bit right rotation. -/
def rotr32 (n x : Nat) : Nat := ((x >>> n) ||| (x <<< (32 - n))) % 2 ^ 32

/-- The SHA-256 round constants (FIPS 180-4), written in decimal. -/
def shaK : List Nat :=
  [1116352408, 1899447441, 3049323471, 3921009573, 961987163,
   1508970993, 2453635748, 2870763221, 3624381080, 310598401,
   607225278, 1426881987, 1925078388, 2162078206, 2614888103,
   3248222580, 3835390401, 4022224774, 264347078, 604807628,
   770255983, 1249150122, 1555081692, 1996064986, 2554220882,
   2821834349, 2952996808, 3210313671, 3336571891, 3584528711,
   113926993, 338241895, 666307205, 773529912, 1294757372,
   1396182291, 1695183700, 1986661051, 2177026350, 2456956037,
   2730485921, 2820302411, 3259730800, 3345764771, 3516065817,
   3600352804, 4094571909, 275423344, 430227734, 506948616,
   659060556, 883997877, 958139571, 1322822218, 1537002063,
   1747873779, 1955562222, 2024104815, 2227730452, 2361852424,
   2428436474, 2756734187, 3204031479, 3329325298]

/-- The SHA-256 initial hash state, written in decimal. -/
def shaH0 : List Nat :=
  [1779033703, 3144134277, 1013904242, 2773480762, 1359893119,
   2600822924, 528734635, 1541459225]

/-- Big-endian: 4 bytes to a 32-bit word. -/
def word32BE : List Nat → Nat
  | [a, b, c, d] => ((a * 256 + b) * 256 + c) * 256 + d
  | _ => 0

/-- Big-endian serialization of a 32-bit word. -/
def word32ToBytesBE (x : Nat) : List Nat :=
  [(x >>> 24) % 256, (x >>> 16) % 256, (x >>> 8) % 256, x % 256]

/-- SHA-256 message schedule: extend 16 words by `i` further words. -/
def shaSchedule (w : List Nat) : Nat → List Nat
  | 0 => w
  | Nat.succ j =>
    let w := shaSchedule w j
    let t := 16 + j
    let w15 := w.getD (t - 15) 0
    let w2 := w.getD (t - 2) 0
    let s0 := (rotr32 7 w15) ^^^ (rotr32 18 w15) ^^^ (w15 >>> 3)
    let s1 := (rotr32 17 w2) ^^^ (rotr32 19 w2) ^^^ (w2 >>> 10)
    w ++ [(w.getD (t - 16) 0 + s0 + w.getD (t - 7) 0 + s1) % 2 ^ 32]

/-- The eight SHA-256 working variables. -/
structure Sha8 where
  a : Nat
  b : Nat
  c : Nat
  d : Nat
  e : Nat
  f : Nat
  g : Nat
  h : Nat

/-- One SHA-256 compression round. -/
def shaRound (w : List Nat) (s : Sha8) (i : Nat) : Sha8 :=
  let s1 := (rotr32 6 s.e) ^^^ (rotr32 11 s.e) ^^^ (rotr32 25 s.e)
  let ch := (s.e &&& s.f) ^^^ ((2 ^ 32 - 1 - s.e % 2 ^ 32) &&& s.g)
  let t1 := (s.h + s1 + ch + shaK.getD i 0 + w.getD i 0) % 2 ^ 32
  let s0 := (rotr32 2 s.a) ^^^ (rotr32 13 s.a) ^^^ (rotr32 22 s.a)
  let mj := (s.a &&& s.b) ^^^ (s.a &&& s.c) ^^^ (s.b &&& s.c)
  let t2 := (s0 + mj) % 2 ^ 32
  ⟨(t1 + t2) % 2 ^ 32, s.a, s.b, s.c, (s.d + t1) % 2 ^ 32, s.e, s.f, s.g⟩

/-- Iterated SHA-256 rounds. -/
def shaRounds (w : List Nat) (s : Sha8) : Nat → Sha8
  | 0 => s
  | Nat.succ n => shaRound w (shaRounds w s n) n

/-- SHA-256 compression of one 64-byte block into the hash state. -/
def shaCompress (hs : List Nat) (block : List Nat) : List Nat :=
  let w := shaSchedule ((chunks1 3 block).map word32BE) 48
  let s0 : Sha8 := ⟨hs.getD 0 0, hs.getD 1 0, hs.getD 2 0, hs.getD 3 0,
                    hs.getD 4 0, hs.getD 5 0, hs.getD 6 0, hs.getD 7 0⟩
  let s := shaRounds w s0 64
  [(hs.getD 0 0 + s.a) % 2 ^ 32, (hs.getD 1 0 + s.b) % 2 ^ 32,
   (hs.getD 2 0 + s.c) % 2 ^ 32, (hs.getD 3 0 + s.d) % 2 ^ 32,
   (hs.getD 4 0 + s.e) % 2 ^ 32, (hs.getD 5 0 + s.f) % 2 ^ 32,
   (hs.getD 6 0 + s.g) % 2 ^ 32, (hs.getD 7 0 + s.h) % 2 ^ 32]

/-- SHA-256 padding: a 0x80 byte, zeros, and the 64-bit message bit
length. -/
def shaPad (msg : List Nat) : List Nat :=
  msg ++ [0x80] ++ List.replicate ((55 + 64 - msg.length % 64) % 64) 0 ++
    ((List.range 8).reverse.map (fun i => ((8 * msg.length) >>> (8 * i)) % 256))

/-- SHA-256 of a byte list. -/
def sha256 (msg : List Nat) : List Nat :=
  ((chunks1 63 (shaPad msg)).foldl shaCompress shaH0).flatMap word32ToBytesBE

/-- HMAC-SHA256 for keys of at most 64 bytes. -/
def hmacSha256 (key msg : List Nat) : List Nat :=
  let k0 := key ++ List.replicate (64 - key.length) 0
  sha256 ((k0.map (fun b => b ^^^ 0x5c)) ++ sha256 ((k0.map (fun b => b ^^^ 0x36)) ++ msg))

/-- HKDF-SHA256 with absent salt (32 zero bytes per RFC 5869), empty
info and L = 32: extract then a single expand block, exactly the
`Hkdf::<Sha256>::new(None, ikm)` / `expand(&[], ..32)` call in
`Cipher::derive_sym_key`. -/
def hkdfSha256 (ikm : List Nat) : List Nat :=
  hmacSha256 (hmacSha256 (List.replicate 32 0) ikm) [1]

/-! ## X25519 (RFC 7748), modelling `x25519_dalek`. -/

/-- The prime of Curve25519. -/
def p25519 : Nat := 2 ^ 255 - 19

/-- Field addition modulo `p25519`. -/
def fadd (a b : Nat) : Nat := (a + b) % p25519

/-- Field subtraction modulo `p25519`. -/
def fsub (a b : Nat) : Nat := (a + (p25519 - b % p25519)) % p25519

/-- Field multiplication modulo `p25519`. -/
def fmul (a b : Nat) : Nat := (a * b) % p25519

/-- Field squaring modulo `p25519`. -/
def fsq (a : Nat) : Nat := (a * a) % p25519

/-- Square-and-multiply exponentiation modulo `p25519`, structural on a
fuel argument so that the kernel can unfold it. -/
def fpowFuel : Nat → Nat → Nat → Nat
  | 0, _, _ => 1
  | Nat.succ fuel, a, e =>
    if e == 0 then 1
    else
      let h := fpowFuel fuel (fsq a) (e / 2)
      if e % 2 == 1 then fmul a h else h

/-- Field inversion modulo `p25519` via Fermat. -/
def finv (a : Nat) : Nat := fpowFuel 256 a (p25519 - 2)

/-- Scalar clamping per RFC 7748: clear bits 0-2 and bit 255, set bit
254. -/
def clampScalar (k : Nat) : Nat := (k / 8) * 8 % 2 ^ 254 + 2 ^ 254

/-- Montgomery-ladder state. -/
structure LadderSt where
  x2 : Nat
  z2 : Nat
  x3 : Nat
  z3 : Nat

/-- One Montgomery ladder step (doubling and differential addition). -/
def ladderStep (x1 : Nat) (s : LadderSt) : LadderSt :=
  let A := fadd s.x2 s.z2
  let AA := fsq A
  let B := fsub s.x2 s.z2
  let BB := fsq B
  let E := fsub AA BB
  let C := fadd s.x3 s.z3
  let D := fsub s.x3 s.z3
  let DA := fmul D A
  let CB := fmul C B
  let x3 := fsq (fadd DA CB)
  let z3 := fmul x1 (fsq (fsub DA CB))
  let x2 := fmul AA BB
  let z2 := fmul E (fadd AA (fmul 121665 E))
  ⟨x2, z2, x3, z3⟩

/-- The Montgomery ladder over the bits of the scalar, from bit `n - 1`
down to bit 0, with the conditional swap folded into the step. -/
def ladder (x1 k : Nat) : Nat → LadderSt → LadderSt
  | 0, s => s
  | Nat.succ n, s =>
    let s' :=
      if (k >>> n) % 2 == 1 then
        let r := ladderStep x1 ⟨s.x3, s.z3, s.x2, s.z2⟩
        LadderSt.mk r.x3 r.z3 r.x2 r.z2
      else
        ladderStep x1 s
    ladder x1 k n s'

/-- X25519 scalar multiplication on field elements. -/
def x25519core (k u : Nat) : Nat :=
  let x1 := u % p25519
  let s := ladder x1 k 255 ⟨1, 0, x1, 1⟩
  fmul s.x2 (finv s.z2)

/-- X25519 on 32-byte little-endian lists (RFC 7748 §5):
`StaticSecret::diffie_hellman`. -/
def x25519 (k u : List Nat) : List Nat :=
  natToBytesLE 32 (x25519core (clampScalar (bytesToNatLE k)) (bytesToNatLE u % 2 ^ 255))

/-- The X25519 public key of a secret: scalar multiplication of the base
point `u = 9` (`PublicKey::from(&StaticSecret)`). -/
def x25519pub (k : List Nat) : List Nat :=
  x25519 k (9 :: List.replicate 31 0)

/-! ## The key-value store and domain records.

`monedero_store::KvStorage` and the `monedero_domain` records are
repository crates whose sources are not available here; they are modelled
from the spec: an opaque durable map from string keys to self-describing
serialized records supporting get/set/delete/clear, `Pairing` as
`(topic, sym_key, metadata)` and `SessionSettled` as
`(topic, namespaces, expiry)`. -/

/-- Modelled from the spec: a `Pairing` record; `topic` is the hex topic
identifier and `symKey` the 32-byte symmetric secret
(`pairing.params.sym_key`); the metadata is irrelevant to the claims. -/
structure Pairing where
  topic : String
  symKey : List Nat
  deriving DecidableEq, Repr

/-- Modelled from the spec: a `SessionSettled` record
`(topic, namespaces, expiry)`; namespaces are carried opaquely and are
irrelevant to the claims, `expiry` is a Unix timestamp (`i64`). -/
structure SessionSettled where
  topic : String
  expiry : Int
  deriving DecidableEq, Repr

/-- A value held by the store.  The real store keeps serialized bytes;
the variants correspond to the record types the cipher reads and writes.
Reading a key at the wrong type models a deserialization failure. -/
inductive StoredValue where
  | pairingRec (p : Pairing)
  | topics (l : List String)
  | str (s : String)
  | settled (s : SessionSettled)
  deriving DecidableEq, Repr

/-- Modelled from the spec: the durable key-value store, as an
association list from string keys to records. -/
def Store : Type := List (String × StoredValue)

instance : DecidableEq Store := inferInstanceAs (DecidableEq (List (String × StoredValue)))

/-- Raw lookup of a key. -/
def Store.find : Store → String → Option StoredValue
  | [], _ => none
  | (k, v) :: rest, key => if k = key then some v else Store.find rest key

/-- `KvStorage::set`: replace or insert a record. -/
def Store.set (st : Store) (k : String) (v : StoredValue) : Store :=
  (k, v) :: st.filter (fun e => ¬ (e.1 = k))

/-- `KvStorage::delete`. -/
def Store.del (st : Store) (k : String) : Store :=
  st.filter (fun e => ¬ (e.1 = k))

/-- `KvStorage::clear`. -/
def Store.clear (_ : Store) : Store := []

/-- `storage.get::<Pairing>(key)`: `Ok(None)` when absent, an error when
the record does not deserialize at the requested type. -/
def Store.getPairing (st : Store) (k : String) : Except Unit (Option Pairing) :=
  match st.find k with
  | none => .ok none
  | some (.pairingRec p) => .ok (some p)
  | some _ => .error ()

/-- `storage.get::<Vec<Topic>>(key)` (also used at `Vec<String>`). -/
def Store.getTopics (st : Store) (k : String) : Except Unit (Option (List String)) :=
  match st.find k with
  | none => .ok none
  | some (.topics l) => .ok (some l)
  | some _ => .error ()

/-- `storage.get::<String>(key)`. -/
def Store.getStr (st : Store) (k : String) : Except Unit (Option String) :=
  match st.find k with
  | none => .ok none
  | some (.str s) => .ok (some s)
  | some _ => .error ()

/-- `storage.get::<SessionSettled>(key)`. -/
def Store.getSettled (st : Store) (k : String) : Except Unit (Option SessionSettled) :=
  match st.find k with
  | none => .ok none
  | some (.settled s) => .ok (some s)
  | some _ => .error ()

/-- `storage.get::<SessionSettleRequest>(key)`: the cipher's private
expiry-only view of a stored settlement (`struct SessionSettleRequest {
expiry: i64 }`); serde's forward-compatible unknown-field skipping reads
just the expiry out of a stored `SessionSettled`. -/
def Store.getSettleExpiry (st : Store) (k : String) : Except Unit (Option Int) :=
  match st.find k with
  | none => .ok none
  | some (.settled s) => .ok (some s.expiry)
  | some _ => .error ()

/-- The error type of the cipher crate (`CipherError`), with the variants
used by `cipher.rs`; `storeErr` stands for the converted storage error
and `serdeErr` for converted serde-JSON/UTF-8 errors. -/
inductive CipherError where
  | corrupted
  | corruptedPayload
  | encryptionError
  | unknownTopic (t : String)
  | unknownSessionTopic (t : String)
  | nonExistingPairing
  | invalidKeyLength
  | hexError
  | storeErr
  | serdeErr
  deriving DecidableEq, Repr

/-- The envelope type byte (`cipher.rs` `enum Type`): type 0, or type 1
carrying a sender key. -/
inductive EnvelopeType where
  | type0
  | type1 (key : List Nat)
  deriving DecidableEq, Repr

/-- `Type::as_bytes`: the type byte, followed by the 32-byte sender key
for type 1. -/
def EnvelopeType.asBytes : EnvelopeType → List Nat
  | .type0 => [0]
  | .type1 key => 1 :: key

/-- Panic message for an out-of-bounds index. -/
def msgIndexOOB : String := "index out of bounds"

/-- Panic message for an out-of-range slice. -/
def msgSliceOOB : String := "range end index out of range"

/-- Panic message for `unwrap` of `(&bytes[1..32]).try_into()`: a 31-byte
slice never converts into `[u8; 32]`. -/
def msgTryInto : String := "called unwrap on an Err value: TryFromSliceError"

/-- `Type::from_bytes`.  The source indexes `bytes[0]` (a panic on an
empty slice) and, for a type-1 byte, evaluates
`VerifyingKey::from_bytes((&bytes[1..32]).try_into().unwrap())`: the
slice `bytes[1..32]` panics when fewer than 32 bytes are present, and
otherwise has 31 elements, so `try_into` to a 32-byte array always fails
and the `unwrap` always panics. -/
def envTypeFromBytes : List Nat → PanicOr (Option EnvelopeType)
  | [] => .panic msgIndexOOB
  | b :: rest =>
    if b = 0 then .ok (some .type0)
    else if b = 1 then
      if (b :: rest).length < 32 then .panic msgSliceOOB
      else .panic msgTryInto
    else .ok none

/-! ## The Cipher keystore (`cipher/src/cipher.rs`). -/

/-- The cipher state: the per-topic AEAD key table (`ciphers`, a
`DashMap<Topic, ChaCha20Poly1305>`, each AEAD identified by its 32-byte
key), the pairing map (`pairing: AtomicPairing`) and the store. -/
structure Cipher where
  ciphers : List (String × List Nat)
  pairingMap : List (String × Pairing)
  storage : Store
  deriving DecidableEq

/-- Lookup in an association list with string keys. -/
def assocFind {α : Type} : List (String × α) → String → Option α
  | [], _ => none
  | (k, v) :: rest, key => if k = key then some v else assocFind rest key

/-- `DashMap::insert`: replace or insert. -/
def assocInsert {α : Type} (l : List (String × α)) (k : String) (v : α) : List (String × α) :=
  (k, v) :: l.filter (fun e => ¬ (e.1 = k))

/-- `DashMap::remove`. -/
def assocRemove {α : Type} (l : List (String × α)) (k : String) : List (String × α) :=
  l.filter (fun e => ¬ (e.1 = k))

/-- `Cipher::storage_pairing()`: the key `crypto-pairingtopic`. -/
def storagePairingKey : String := "crypto-pairingtopic"

/-- `Cipher::storage_sessions()`: the key `crypto-sessions`. -/
def storageSessionsKey : String := "crypto-sessions"

/-- `Cipher::storage_session_key(topic)`: the key `crypto-<topic>`. -/
def storageSessionKey (t : String) : String := "crypto-" ++ t

/-- `Cipher::storage_settlement(topic)`: the key
`crypto-settlement-<topic>`. -/
def storageSettlementKey (t : String) : String := "crypto-settlement-" ++ t

/-- `Cipher::pairing`: re-reads `crypto-pairingtopic` from the store on
every call; `.ok().unwrap_or(None)` folds both a read error and an absent
record into `None`. -/
def Cipher.pairing (c : Cipher) : Option Pairing :=
  match c.storage.getPairing storagePairingKey with
  | .ok o => o
  | .error _ => none

/-- `Cipher::pairing_key`: the symmetric key of the current pairing. -/
def Cipher.pairingKey (c : Cipher) : Option (List Nat) :=
  (c.pairing).map Pairing.symKey

/-- `Cipher::public_key`: `PublicKey::from(&pairing.params.sym_key)`. -/
def Cipher.publicKey (c : Cipher) : Option (List Nat) :=
  (c.pairing).map (fun p => x25519pub p.symKey)

/-- `Cipher::public_key_hex`. -/
def Cipher.publicKeyHex (c : Cipher) : Option String :=
  (c.publicKey).map hexEncode

/-- `Cipher::is_expired(topic)`: reads the settlement record's expiry;
an absent record is `UnknownSessionTopic`; returns `expiry < now`.  The
wall clock `chrono::Utc::now().timestamp()` is passed as the `now`
argument. -/
def Cipher.isExpired (c : Cipher) (t : String) (now : Int) : Except CipherError Bool :=
  match c.storage.getSettleExpiry (storageSettlementKey t) with
  | .error _ => .error .storeErr
  | .ok none => .error (.unknownSessionTopic t)
  | .ok (some e) => .ok (decide (e < now))

/-- `Cipher::set_settlement(topic, settlement)`. -/
def Cipher.setSettlement (c : Cipher) (t : String) (s : SessionSettled) : Except CipherError Unit × Cipher :=
  (.ok (), { c with storage := c.storage.set (storageSettlementKey t) (.settled s) })

/-- `Cipher::settlements`: empty when either map is empty; otherwise
reads the persisted session-topic list and collects the settlement
records that exist. -/
def Cipher.settlements (c : Cipher) : Except CipherError (List SessionSettled) :=
  if c.pairingMap = [] ∨ c.ciphers = [] then .ok []
  else
    match c.storage.getTopics storageSessionsKey with
    | .error _ => .error .storeErr
    | .ok sessions =>
      let rec go : List String → Except CipherError (List SessionSettled)
        | [] => .ok []
        | t :: rest =>
          match c.storage.getSettled (storageSettlementKey t) with
          | .error _ => .error .storeErr
          | .ok none => go rest
          | .ok (some s) =>
            match go rest with
            | .error e => .error e
            | .ok tl => .ok (s :: tl)
      go (sessions.getD [])

/-- `Cipher::delete_session(topic)`: deletes the `crypto-<topic>` record,
rewrites the `crypto-sessions` list through the filter
`|t| t == topic` as written in the source, deletes the settlement record,
and removes the AEAD key. -/
def Cipher.deleteSession (c : Cipher) (t : String) : Except CipherError Unit × Cipher :=
  let st1 := c.storage.del (storageSessionKey t)
  match st1.getTopics storageSessionsKey with
  | .error _ => (.error .storeErr, { c with storage := st1 })
  | .ok found =>
    let st2 :=
      match found with
      | some sessions => st1.set storageSessionsKey (.topics (sessions.filter (fun s => s = t)))
      | none => st1
    let st3 := st2.del (storageSettlementKey t)
    (.ok (), { c with storage := st3, ciphers := assocRemove c.ciphers t })

/-- `Cipher::reset`: clears the AEAD table, the pairing map and the
store. -/
def Cipher.reset (c : Cipher) : Cipher :=
  { ciphers := [], pairingMap := [], storage := c.storage.clear }

/-- `Cipher::set_pairing`: a full reset, then installation of the new
pairing into the store, the pairing map and the AEAD table. -/
def Cipher.setPairing (c : Cipher) (pairing : Option Pairing) : Except CipherError Unit × Cipher :=
  let c0 := c.reset
  match pairing with
  | none => (.ok (), c0)
  | some p =>
    (.ok (), { c0 with
      storage := c0.storage.set storagePairingKey (.pairingRec p),
      pairingMap := assocInsert c0.pairingMap p.topic p,
      ciphers := assocInsert c0.ciphers p.topic p.symKey })

/-- `Cipher::derive_sym_key(static_key, controller_pk)`: hex-decode the
peer key, require 32 bytes, Diffie-Hellman, HKDF-SHA256 with empty salt
and info, the topic being the lowercase hex of the SHA-256 of the
expanded key. -/
def Cipher.deriveSymKey (staticKey : List Nat) (controllerPk : String) : Except CipherError (String × List Nat) :=
  match hexDecode controllerPk with
  | none => .error .hexError
  | some decoded =>
    if decoded.length = 32 then
      let okm := hkdfSha256 (x25519 staticKey decoded)
      .ok (hexEncode (sha256 okm), okm)
    else .error .invalidKeyLength

/-- `Cipher::register(topic, key)`: install the AEAD for a topic. -/
def Cipher.register (c : Cipher) (t : String) (key : List Nat) : Cipher :=
  { c with ciphers := assocInsert c.ciphers t key }

/-- `Cipher::update_sessions(controller_pk, topic)`: writes the sessions
list as the singleton `vec![topic]` (as the source does) and stores the
controller key under `crypto-<topic>`. -/
def Cipher.updateSessions (c : Cipher) (controllerPk : String) (t : String) : Except CipherError Unit × Cipher :=
  let st1 := c.storage.set storageSessionsKey (.topics [t])
  let st2 := st1.set (storageSessionKey t) (.str controllerPk)
  (.ok (), { c with storage := st2 })

/-- `Cipher::create_common_topic(controller_pk)`: requires a pairing,
derives the session topic and key, persists via `update_sessions`,
registers the AEAD, and returns the topic with
`PublicKey::from(&expanded_key)`. -/
def Cipher.createCommonTopic (c : Cipher) (controllerPk : String) :
    Except CipherError (String × List Nat) × Cipher :=
  match c.pairingKey with
  | none => (.error .nonExistingPairing, c)
  | some pairingKey =>
    match Cipher.deriveSymKey pairingKey controllerPk with
    | .error e => (.error e, c)
    | .ok (newTopic, expandedKey) =>
      match c.updateSessions controllerPk newTopic with
      | (.error e, c1) => (.error e, c1)
      | (.ok (), c1) =>
        (.ok (newTopic, x25519pub expandedKey), c1.register newTopic expandedKey)

/-- The body of `Cipher::init`'s session-restoration loop: walk the
persisted session topics; at the first expired one
(`is_expired(..).ok().unwrap_or(false)`) stop and clear the store;
otherwise restore the session key derived from the stored controller key
(skipping sessions with no stored key), propagating store and derivation
errors. -/
def Cipher.initLoop (key : List Nat) (now : Int) : Cipher → List String → Except CipherError Cipher
  | c, [] => .ok c
  | c, s :: rest =>
    let expired :=
      match c.isExpired s now with
      | .ok b => b
      | .error _ => false
    if expired then .ok { c with storage := c.storage.clear }
    else
      match c.storage.getStr (storageSessionKey s) with
      | .error _ => .error .storeErr
      | .ok none => Cipher.initLoop key now c rest
      | .ok (some controllerPk) =>
        match Cipher.deriveSymKey key controllerPk with
        | .error e => .error e
        | .ok (topic, expandedKey) =>
          Cipher.initLoop key now (c.register topic expandedKey) rest

/-- `Cipher::init`: when no pairing is persisted, clear the store;
otherwise re-register the pairing key and restore the persisted sessions
via `initLoop`. -/
def Cipher.init (c : Cipher) (now : Int) : Except CipherError Cipher :=
  match c.pairing with
  | none => .ok { c with storage := c.storage.clear }
  | some p =>
    let c1 := { c with
      pairingMap := assocInsert c.pairingMap p.topic p,
      ciphers := assocInsert c.ciphers p.topic p.symKey }
    match c1.storage.getTopics storageSessionsKey with
    | .error _ => .error .storeErr
    | .ok none => .ok c1
    | .ok (some sessions) => Cipher.initLoop p.symKey now c1 sessions

/-- `Cipher::new(storage, _)`: read a persisted pairing into the pairing
map, then run `init`.  The wall clock is passed as `now`. -/
def Cipher.new (storage : Store) (now : Int) : Except CipherError Cipher :=
  match storage.getPairing storagePairingKey with
  | .error _ => .error .storeErr
  | .ok opt =>
    let pm :=
      match opt with
      | some p => [(p.topic, p)]
      | none => []
    Cipher.init ⟨[], pm, storage⟩ now

/-- `Cipher::encode_with_params(topic, payload, nonce, envelope_type)`:
look up the AEAD for the topic, serialize the payload (`ser` models the
payload's serde-JSON serialization to UTF-8 bytes), encrypt, frame as
`type bytes ++ nonce ++ ciphertext`, and base64-encode. -/
def Cipher.encodeWithParams {α : Type} (c : Cipher) (t : String) (ser : α → List Nat)
    (payload : α) (nonce : List Nat) (envelopeType : EnvelopeType) : Except CipherError String :=
  match assocFind c.ciphers t with
  | none => .error (.unknownTopic t)
  | some key =>
    .ok (String.mk (b64Encode (envelopeType.asBytes ++ nonce ++ chachaEncrypt key nonce (ser payload))))

/-- `Cipher::encode(topic, payload)`: `encode_with_params` with a fresh
random nonce and the default type-0 envelope; the sampled nonce is passed
as the `nonce` argument. -/
def Cipher.encode {α : Type} (c : Cipher) (t : String) (ser : α → List Nat)
    (payload : α) (nonce : List Nat) : Except CipherError String :=
  c.encodeWithParams t ser payload nonce .type0

/-- `Cipher::decode_bytes(topic, bytes)`: look up the AEAD, split the
12-byte nonce (`&bytes[0..12]` panics when fewer than 12 bytes remain),
and decrypt; a failed decryption is `EncryptionError`. -/
def Cipher.decodeBytes (c : Cipher) (t : String) (bytes : List Nat) :
    PanicOr (Except CipherError (List Nat)) :=
  match assocFind c.ciphers t with
  | none => .ok (.error (.unknownTopic t))
  | some key =>
    if bytes.length < 12 then .panic msgSliceOOB
    else
      match chachaDecrypt key (bytes.take 12) (bytes.drop 12) with
      | .error _ => .ok (.error .encryptionError)
      | .ok pt => .ok (.ok pt)

/-- `Cipher::decode_to_string(topic, payload)`: base64-decode (a failure
is the converted `CorruptedPayload`), read the envelope type byte, strip
the type prefix (`&payload[33..]` panics when a type-1 envelope is
shorter than 33 bytes), and decrypt.  The result is the decrypted
plaintext (UTF-8 bytes of the JSON string). -/
def Cipher.decodeToString (c : Cipher) (t : String) (payload : String) :
    PanicOr (Except CipherError (List Nat)) :=
  match b64Decode payload.data with
  | .error _ => .ok (.error .corruptedPayload)
  | .ok bytes =>
    match envTypeFromBytes bytes with
    | .panic m => .panic m
    | .ok none => .ok (.error .corruptedPayload)
    | .ok (some .type0) => c.decodeBytes t (bytes.drop 1)
    | .ok (some (.type1 _)) =>
      if bytes.length < 33 then .panic msgSliceOOB
      else c.decodeBytes t (bytes.drop 33)

/-- `Cipher::decode(topic, payload)`: `decode_to_string` followed by
serde-JSON deserialization of the payload type (modelled by `de`; a
deserialization or UTF-8 failure is the converted `serdeErr`). -/
def Cipher.decode {α : Type} (c : Cipher) (t : String) (de : List Nat → Option α)
    (payload : String) : PanicOr (Except CipherError α) :=
  match c.decodeToString t payload with
  | .panic m => .panic m
  | .ok (.error e) => .ok (.error e)
  | .ok (.ok bytes) =>
    match de bytes with
    | some v => .ok (.ok v)
    | none => .ok (.error .serdeErr)

/-! ## The RPC parameter layer (`sessions/src/rpc/params.rs`,
`sessions/src/rpc/params/pair_extend.rs`,
`sessions/src/actors/pair_manager_requests.rs`). -/

/-- The eleven JSON-RPC methods of `RequestParams` (the serde `method`
tags `wc_pairingDelete`, `wc_pairingExtend`, ..., `wc_sessionPing`). -/
inductive RpcMethod where
  | pairDelete
  | pairExtend
  | pairPing
  | sessionPropose
  | sessionSettle
  | sessionUpdate
  | sessionExtend
  | sessionRequest
  | sessionEvent
  | sessionDelete
  | sessionPing
  deriving DecidableEq, Repr

/-- The wire name of each method, from the serde renames on
`RequestParams`. -/
def RpcMethod.wireName : RpcMethod → String
  | .pairDelete => "wc_pairingDelete"
  | .pairExtend => "wc_pairingExtend"
  | .pairPing => "wc_pairingPing"
  | .sessionPropose => "wc_sessionPropose"
  | .sessionSettle => "wc_sessionSettle"
  | .sessionUpdate => "wc_sessionUpdate"
  | .sessionExtend => "wc_sessionExtend"
  | .sessionRequest => "wc_sessionRequest"
  | .sessionEvent => "wc_sessionEvent"
  | .sessionDelete => "wc_sessionDelete"
  | .sessionPing => "wc_sessionPing"

/-- `ErrorParams` (`params.rs`): an optional numeric code and a
message. -/
structure ErrorParams where
  code : Option Nat
  message : String
  deriving DecidableEq, Repr

/-- `ErrorParams::unknown()`: code 1, message `Unknown Error`. -/
def ErrorParams.unknown : ErrorParams :=
  { code := some 1, message := "Unknown Error" }

/-- `ResponseParamsError` (`params.rs`): a typed error response, one
variant per method, each carrying `ErrorParams`. -/
inductive ResponseParamsError where
  | sessionPropose (e : ErrorParams)
  | sessionSettle (e : ErrorParams)
  | sessionUpdate (e : ErrorParams)
  | sessionExtend (e : ErrorParams)
  | sessionRequest (e : ErrorParams)
  | sessionEvent (e : ErrorParams)
  | sessionDelete (e : ErrorParams)
  | sessionPing (e : ErrorParams)
  | pairPing (e : ErrorParams)
  | pairDelete (e : ErrorParams)
  | pairExtend (e : ErrorParams)
  deriving DecidableEq, Repr

/-- The method a `ResponseParamsError` variant is paired to. -/
def ResponseParamsError.method : ResponseParamsError → RpcMethod
  | .sessionPropose _ => .sessionPropose
  | .sessionSettle _ => .sessionSettle
  | .sessionUpdate _ => .sessionUpdate
  | .sessionExtend _ => .sessionExtend
  | .sessionRequest _ => .sessionRequest
  | .sessionEvent _ => .sessionEvent
  | .sessionDelete _ => .sessionDelete
  | .sessionPing _ => .sessionPing
  | .pairPing _ => .pairPing
  | .pairDelete _ => .pairDelete
  | .pairExtend _ => .pairExtend

/-- `PairExtendRequest` (`pair_extend.rs`): the epoch expiry. -/
structure PairExtendRequest where
  expiry : Nat
  deriving DecidableEq, Repr

/-- The method of a `PairExtendRequest` (`RequestParams::PairExtend`,
serde tag `wc_pairingExtend`). -/
def PairExtendRequest.method (_ : PairExtendRequest) : RpcMethod := .pairExtend

/-- `impl IntoUnknownError for PairExtendRequest` as written in
`pair_extend.rs`: it constructs
`ResponseParamsError::PairDelete(ErrorParams::unknown())`. -/
def PairExtendRequest.unknown (_ : PairExtendRequest) : ResponseParamsError :=
  .pairDelete ErrorParams.unknown

/-- A reply payload: either a success or a typed error.  The success
payloads (`ResponseParamsSuccess`) are irrelevant to the claims and
carried opaquely by method. -/
inductive RpcResponsePayload where
  | success (m : RpcMethod)
  | err (e : ResponseParamsError)
  deriving DecidableEq, Repr

/-- An outbound reply correlated to a request id and topic. -/
structure RpcResponse where
  id : Nat
  topic : String
  payload : RpcResponsePayload
  deriving DecidableEq, Repr

/-- Modelled from the spec: `RpcResponse::unknown(id, topic, e)` — the
unknown-error reply carrying the typed error (the constructor itself is
declared outside the available sources). -/
def RpcResponse.unknown (id : Nat) (topic : String) (e : ResponseParamsError) : RpcResponse :=
  { id := id, topic := topic, payload := .err e }

/-- The reply `RequestHandlerActor::handle_pair_mgr_request` sends when
the dispatch to the pairing manager fails:
`RpcResponse::unknown(id, topic, request.unknown())` with the request's
`IntoUnknownError` payload (`pair_manager_requests.rs` lines 59-63). -/
def handlePairMgrFailureReply (id : Nat) (topic : String) (r : PairExtendRequest) : RpcResponse :=
  RpcResponse.unknown id topic r.unknown

/-! ## Concrete fixtures used by witnesses and counterexamples. -/

/-- A concrete pairing record. -/
def pairingA : Pairing := ⟨"pt", List.replicate 32 9⟩

/-- A 64-character hex controller key (32 bytes of 0x11). -/
def pkHexA : String := String.mk (List.replicate 64 '1')

/-- A second, distinct 64-character hex controller key (32 bytes of
0x22). -/
def pkHexB : String := String.mk (List.replicate 64 '2')

/-- A cipher holding one session topic with persisted records, for
exercising `delete_session`. -/
def cipherC4 : Cipher :=
  ⟨[("aa", List.replicate 32 1)], [],
   [(storageSessionKey "aa", .str "ctrl"),
    (storageSessionsKey, .topics ["aa", "bb"]),
    (storageSettlementKey "aa", .settled ⟨"aa", 99⟩)]⟩

/-- A store carrying a pairing, one session topic and an expired
settlement, for exercising restoration. -/
def storeC6 : Store :=
  [(storagePairingKey, .pairingRec pairingA),
   (storageSessionsKey, .topics ["s1"]),
   (storageSettlementKey "s1", .settled ⟨"s1", 0⟩)]

/-- A cipher whose settlement for topic `aa` expires at time 100. -/
def cipherC8 : Cipher :=
  ⟨[], [], [(storageSettlementKey "aa", .settled ⟨"aa", 100⟩)]⟩

/-- A cipher whose persisted pairing record is corrupt (stored at the
wrong type) while the in-memory pairing map still holds an entry. -/
def cipherC10 : Cipher :=
  ⟨[], [("pt", pairingA)], [(storagePairingKey, .str "garbage")]⟩

/-- A cipher with an installed pairing, for exercising
`create_common_topic`. -/
def cipherW5 : Cipher :=
  ⟨[("pt", pairingA.symKey)], [("pt", pairingA)],
   [(storagePairingKey, .pairingRec pairingA)]⟩

/-- Peer B of the shared pairing: same persisted pairing, fresh AEAD
table. -/
def cipherWB : Cipher :=
  ⟨[], [], [(storagePairingKey, .pairingRec pairingA)]⟩

/-! ## Lemmas: base64 round trip. -/

/-- Decoding inverts encoding on each 6-bit value. -/
theorem b64Val_b64Char : ∀ n, n < 64 → b64Val (b64Char n) = some n := by decide

/-- No alphabet character is the padding character. -/
theorem b64Char_ne_pad : ∀ n, n < 64 → b64Char n ≠ '=' := by decide

/-- Decoding one encoded 3-byte group peels off the three bytes. -/
theorem b64Decode_group (a b c : Nat) (ha : a < 256) (hb : b < 256) (hc : c < 256)
    (rest : List Char) :
    b64Decode (b64Char (a / 4) :: b64Char ((a % 4) * 16 + b / 16) ::
      b64Char ((b % 16) * 4 + c / 64) :: b64Char (c % 64) :: rest) =
    match b64Decode rest with
    | .ok tl => .ok (a :: b :: c :: tl)
    | .error e => .error e := by
  have hd1 : a / 4 < 64 := by omega
  have hd2 : (a % 4) * 16 + b / 16 < 64 := by omega
  have hd3 : (b % 16) * 4 + c / 64 < 64 := by omega
  have hd4 : c % 64 < 64 := by omega
  simp only [b64Decode, b64Val_b64Char _ hd1, b64Val_b64Char _ hd2, b64Val_b64Char _ hd3,
    b64Val_b64Char _ hd4, if_neg (b64Char_ne_pad _ hd3), if_neg (b64Char_ne_pad _ hd4)]
  have e1 : (a / 4) * 4 + ((a % 4) * 16 + b / 16) / 16 = a := by omega
  have e2 : (((a % 4) * 16 + b / 16) % 16) * 16 + ((b % 16) * 4 + c / 64) / 4 = b := by omega
  have e3 : (((b % 16) * 4 + c / 64) % 4) * 64 + c % 64 = c := by omega
  rw [e1, e2, e3]

/-- Base64 decoding inverts base64 encoding on valid byte lists
(`data_encoding::BASE64`). -/
theorem b64Decode_b64Encode : ∀ l, ValidBytes l → b64Decode (b64Encode l) = .ok l
  | [], _ => rfl
  | [a], h => by
    have ha : a < 256 := h a (by simp)
    have hd1 : a / 4 < 64 := by omega
    have hd2 : (a % 4) * 16 < 64 := by omega
    simp only [b64Encode, b64Decode, b64Val_b64Char _ hd1, b64Val_b64Char _ hd2]
    have hz : a % 4 * 16 % 16 = 0 := by omega
    simp [hz]
    omega
  | [a, b], h => by
    have ha : a < 256 := h a (by simp)
    have hb : b < 256 := h b (by simp)
    have hd1 : a / 4 < 64 := by omega
    have hd2 : (a % 4) * 16 + b / 16 < 64 := by omega
    have hd3 : (b % 16) * 4 < 64 := by omega
    simp only [b64Encode, b64Decode, b64Val_b64Char _ hd1, b64Val_b64Char _ hd2,
      b64Val_b64Char _ hd3, if_neg (b64Char_ne_pad _ hd3)]
    have hz : b % 16 * 4 % 4 = 0 := by omega
    have e1 : a / 4 * 4 + (a % 4 * 16 + b / 16) / 16 = a := by omega
    simp [hz, e1]
    omega
  | a :: b :: c :: rest, h => by
    have ha : a < 256 := h a (by simp)
    have hb : b < 256 := h b (by simp)
    have hc : c < 256 := h c (by simp)
    have hrest : ValidBytes rest := fun x hx => h x (by simp [hx])
    simp only [b64Encode]
    rw [b64Decode_group a b c ha hb hc, b64Decode_b64Encode rest hrest]

/-! ## Lemmas: ChaCha20-Poly1305 round trip. -/

/-- `natToBytesLE` produces the requested number of bytes. -/
theorem natToBytesLE_length (len n : Nat) : (natToBytesLE len n).length = len := by
  simp [natToBytesLE]

/-- `natToBytesLE` produces valid bytes. -/
theorem natToBytesLE_valid (len n : Nat) : ValidBytes (natToBytesLE len n) := by
  intro b hb
  simp only [natToBytesLE, List.mem_map, List.mem_range] at hb
  obtain ⟨i, _, rfl⟩ := hb
  omega

/-- The key stream has the requested length. -/
theorem keystream_length (k n : List Nat) (m : Nat) : (keystream k n m).length = m := by
  simp [keystream]

/-- The Poly1305 tag is 16 bytes. -/
theorem tagOf_length (k n ct : List Nat) : (tagOf k n ct).length = 16 := by
  simp [tagOf, poly1305Mac, natToBytesLE_length]

/-- The Poly1305 tag consists of valid bytes. -/
theorem tagOf_valid (k n ct : List Nat) : ValidBytes (tagOf k n ct) :=
  natToBytesLE_valid 16 _

/-- `getD` of a list of valid bytes with a valid default is valid. -/
theorem getD_valid (l : List Nat) (i d : Nat) (hl : ∀ b ∈ l, b < 256) (hd : d < 256) :
    l.getD i d < 256 := by
  induction l generalizing i with
  | nil => simpa [List.getD] using hd
  | cons a rest ih =>
    cases i with
    | zero => exact hl a (by simp)
    | succ j =>
      simpa [List.getD] using ih j (fun b hb => hl b (by simp [hb]))

/-- Every byte of a ChaCha20 block is valid. -/
theorem chachaBlock_valid (k : List Nat) (c : Nat) (n : List Nat) :
    ValidBytes (chachaBlock k c n) := by
  intro b hb
  simp only [chachaBlock, List.mem_flatMap] at hb
  obtain ⟨x, _, hx⟩ := hb
  simp only [word32ToBytesLE, List.mem_cons, List.not_mem_nil, or_false] at hx
  rcases hx with h | h | h | h <;> omega

/-- Every key-stream byte is valid. -/
theorem keystream_valid (k n : List Nat) (m : Nat) : ValidBytes (keystream k n m) := by
  intro b hb
  simp only [keystream, List.mem_map, List.mem_range] at hb
  obtain ⟨i, _, rfl⟩ := hb
  exact getD_valid _ _ _ (chachaBlock_valid k _ n) (by norm_num)

/-- XOR of valid byte lists is valid. -/
theorem zipWith_xor_valid : ∀ (pt ks : List Nat), ValidBytes pt → ValidBytes ks →
    ValidBytes (List.zipWith (fun a b => a ^^^ b) pt ks)
  | [], _, _, _ => by intro b hb; simp at hb
  | _ :: _, [], _, _ => by intro b hb; simp at hb
  | a :: pt, b :: ks, hp, hk => by
    intro x hx
    simp only [List.zipWith_cons_cons, List.mem_cons] at hx
    rcases hx with rfl | hx
    · have h256 : (256 : Nat) = 2 ^ 8 := by norm_num
      rw [h256]
      exact Nat.xor_lt_two_pow (h256 ▸ hp a (by simp)) (h256 ▸ hk b (by simp))
    · exact zipWith_xor_valid pt ks (fun y hy => hp y (by simp [hy]))
        (fun y hy => hk y (by simp [hy])) x hx

/-- XOR-ing twice with the same key stream gives back the plaintext. -/
theorem zipWith_xor_cancel : ∀ (pt ks : List Nat), pt.length ≤ ks.length →
    List.zipWith (fun a b => a ^^^ b) (List.zipWith (fun a b => a ^^^ b) pt ks) ks = pt
  | [], _, _ => by simp
  | a :: pt, [], h => by simp at h
  | a :: pt, b :: ks, h => by
    simp only [List.zipWith_cons_cons, Nat.xor_cancel_right, List.cons.injEq, true_and]
    exact zipWith_xor_cancel pt ks (by simpa using h)

/-- The length of a ChaCha20-Poly1305 ciphertext: plaintext plus the
16-byte tag. -/
theorem chachaEncrypt_length (key nonce pt : List Nat) :
    (chachaEncrypt key nonce pt).length = pt.length + 16 := by
  simp [chachaEncrypt, keystream_length, tagOf_length]

/-- A ChaCha20-Poly1305 ciphertext of a valid plaintext is valid. -/
theorem chachaEncrypt_valid (key nonce pt : List Nat) (h : ValidBytes pt) :
    ValidBytes (chachaEncrypt key nonce pt) := by
  intro b hb
  simp only [chachaEncrypt, List.mem_append] at hb
  rcases hb with hb | hb
  · exact zipWith_xor_valid pt _ h (keystream_valid key nonce _) b hb
  · exact tagOf_valid key nonce _ b hb

/-- ChaCha20-Poly1305 decryption inverts encryption. -/
theorem chachaDecrypt_chachaEncrypt (key nonce pt : List Nat) :
    chachaDecrypt key nonce (chachaEncrypt key nonce pt) = .ok pt := by
  have hctlen : (List.zipWith (fun a b => a ^^^ b) pt (keystream key nonce pt.length)).length
      = pt.length := by
    simp [keystream_length]
  simp only [chachaDecrypt, chachaEncrypt_length]
  rw [if_neg (by omega)]
  simp only [chachaEncrypt]
  have hsplit : pt.length + 16 - 16 =
      (List.zipWith (fun a b => a ^^^ b) pt (keystream key nonce pt.length)).length := by
    omega
  rw [hsplit, List.take_left, List.drop_left, if_pos rfl, hctlen]
  exact congrArg Except.ok (zipWith_xor_cancel pt _ (by simp [keystream_length]))

/-! ## C1: encode/decode round trip. -/

/-- Reading the envelope type byte of a type-0 envelope. -/
theorem envTypeFromBytes_type0 (rest : List Nat) :
    envTypeFromBytes (0 :: rest) = .ok (some .type0) := by
  simp [envTypeFromBytes]

/-- `decode_bytes` on a nonce followed by a ChaCha20-Poly1305 encryption
under the registered key recovers the plaintext. -/
theorem decodeBytes_encrypt (c : Cipher) (t : String) (key nonce pt : List Nat)
    (hk : assocFind c.ciphers t = some key) (hn : nonce.length = 12) :
    c.decodeBytes t (nonce ++ chachaEncrypt key nonce pt) = .ok (.ok pt) := by
  have hL : (nonce ++ chachaEncrypt key nonce pt).length = 12 + (pt.length + 16) := by
    simp [chachaEncrypt_length, hn]
  have htake : (nonce ++ chachaEncrypt key nonce pt).take 12 = nonce := by
    rw [show (12 : Nat) = nonce.length from hn.symm]
    exact List.take_left nonce _
  have hdrop : (nonce ++ chachaEncrypt key nonce pt).drop 12 = chachaEncrypt key nonce pt := by
    rw [show (12 : Nat) = nonce.length from hn.symm]
    exact List.drop_left nonce _
  simp only [Cipher.decodeBytes, hk]
  rw [if_neg (by omega), htake, hdrop, chachaDecrypt_chachaEncrypt key nonce pt]

/-- `decode_to_string` of an `encode_with_params` type-0 envelope under
the registered key recovers the serialized plaintext. -/
theorem decodeToString_encode (c : Cipher) (t : String) (key nonce pt : List Nat)
    (hk : assocFind c.ciphers t = some key) (hn : nonce.length = 12)
    (hnv : ValidBytes nonce) (hptv : ValidBytes pt) :
    c.decodeToString t (String.mk (b64Encode
      (EnvelopeType.asBytes .type0 ++ nonce ++ chachaEncrypt key nonce pt))) = .ok (.ok pt) := by
  have henv2 : EnvelopeType.asBytes .type0 ++ nonce ++ chachaEncrypt key nonce pt =
      0 :: (nonce ++ chachaEncrypt key nonce pt) := by
    simp [EnvelopeType.asBytes]
  have henvvalid : ValidBytes (EnvelopeType.asBytes .type0 ++ nonce ++
      chachaEncrypt key nonce pt) := by
    rw [henv2]
    intro b hb
    rcases List.mem_cons.mp hb with rfl | hb
    · omega
    · rcases List.mem_append.mp hb with hb | hb
      · exact hnv b hb
      · exact chachaEncrypt_valid key nonce pt hptv b hb
  simp only [Cipher.decodeToString]
  rw [b64Decode_b64Encode _ henvvalid, henv2]
  simp only [envTypeFromBytes_type0, List.drop_succ_cons, List.drop_zero]
  exact decodeBytes_encrypt c t key nonce pt hk hn

/-- C1.  For every topic `t` with an AEAD key registered in the cipher's
key table and every JSON-serializable payload (a payload whose serde
round trip `de (ser x) = some x` holds), decoding the string produced by
encoding `x` on `t` (type-0 envelope, any 12-byte nonce) returns `x`
unchanged. -/
theorem encode_decode_roundtrip {α : Type}
    (c : Cipher) (t : String) (key : List Nat)
    (hk : assocFind c.ciphers t = some key)
    (nonce : List Nat) (hn : nonce.length = 12) (hnv : ValidBytes nonce)
    (ser : α → List Nat) (de : List Nat → Option α) (payload : α)
    (hv : ValidBytes (ser payload)) (hrt : de (ser payload) = some payload) :
    ∃ s, c.encode t ser payload nonce = .ok s ∧
      c.decode t de s = .ok (.ok payload) := by
  refine ⟨String.mk (b64Encode (EnvelopeType.asBytes .type0 ++ nonce ++
    chachaEncrypt key nonce (ser payload))), ?_, ?_⟩
  · simp only [Cipher.encode, Cipher.encodeWithParams, hk]
  · simp only [Cipher.decode]
    rw [decodeToString_encode c t key nonce (ser payload) hk hn hnv hv]
    simp [hrt]

/-- Witness for C1 at a concrete cipher state, topic, key, nonce and
payload. -/
theorem encode_decode_roundtrip_witness :
    ∃ s, Cipher.encode ⟨[("aa", List.replicate 32 7)], [], []⟩ "aa"
        (fun n : Nat => [48 + n]) 5 (List.replicate 12 0) = .ok s ∧
      Cipher.decode ⟨[("aa", List.replicate 32 7)], [], []⟩ "aa"
        (fun l => if l = [53] then some 5 else none) s = .ok (.ok 5) :=
  encode_decode_roundtrip ⟨[("aa", List.replicate 32 7)], [], []⟩ "aa"
    (List.replicate 32 7) (by decide) (List.replicate 12 0) (by decide) (by decide)
    (fun n : Nat => [48 + n]) (fun l => if l = [53] then some 5 else none) 5
    (by decide) (by decide)

/-! ## C2: decoding the base64 of the empty byte string. -/

/-- C2.  Decoding the base64 encoding of the empty byte string does not
return `CorruptedPayload`: `Type::from_bytes` indexes `bytes[0]` on an
empty slice, so `decode_to_string` panics for every cipher state and
topic. -/
theorem decode_empty_envelope_panics (c : Cipher) (t : String) :
    c.decodeToString t "" = .panic msgIndexOOB := rfl

/-! ## C3: type-1 envelopes. -/

/-- C3.  For every payload whose base64 decoding starts with the byte
0x01 (a type-1 envelope), `decode_to_string` panics — for any embedded
sender key, valid or not: the source slices `bytes[1..32]` (31 bytes) and
`unwrap`s its conversion into a 32-byte array. -/
theorem decode_type1_envelope_panics (c : Cipher) (t : String) (s : String)
    (bs : List Nat) (hdec : b64Decode s.data = .ok bs) (h1 : bs.head? = some 1) :
    ∃ m, c.decodeToString t s = .panic m := by
  cases bs with
  | nil => simp at h1
  | cons b rest =>
    have hb : b = 1 := by simpa using h1
    subst hb
    by_cases hl : rest.length + 1 < 32
    · exact ⟨msgSliceOOB, by simp [Cipher.decodeToString, hdec, envTypeFromBytes, hl]⟩
    · exact ⟨msgTryInto, by simp [Cipher.decodeToString, hdec, envTypeFromBytes, hl]⟩

/-- Witness for C3: the base64 string `AQ==` decodes to the single byte
0x01, and decoding it panics. -/
theorem decode_type1_envelope_panics_witness :
    b64Decode ("AQ==").data = .ok [1] ∧
      ∃ m, Cipher.decodeToString ⟨[], [], []⟩ "aa" "AQ==" = .panic m :=
  ⟨by decide, decode_type1_envelope_panics ⟨[], [], []⟩ "aa" "AQ==" [1] (by decide) (by decide)⟩

/-! ## C4: delete_session. -/

/-- C4.  `delete_session` removes the AEAD key, the `crypto-<t>` record
and the settlement record, but its sessions-list filter keeps exactly the
entries equal to the deleted topic: after deleting `aa` from the list
`[aa, bb]`, the persisted list is `[aa]` — the deleted topic remains a
member (and the unrelated topic `bb` is dropped). -/
theorem delete_session_keeps_deleted_topic :
    (cipherC4.deleteSession "aa").1 = .ok () ∧
    ((cipherC4.deleteSession "aa").2.storage.getTopics storageSessionsKey = .ok (some ["aa"])) ∧
    ((cipherC4.deleteSession "aa").2.storage.find (storageSessionKey "aa") = none) ∧
    ((cipherC4.deleteSession "aa").2.storage.find (storageSettlementKey "aa") = none) ∧
    (assocFind (cipherC4.deleteSession "aa").2.ciphers "aa" = none) := by
  decide

/-! ## C8: is_expired and the expiry boundary. -/

/-- C8 (amended).  For a topic with a persisted settlement of expiry `e`,
`is_expired` returns `e < now`: the session is expired exactly when `now`
is strictly past the expiry, so a session whose expiry equals the current
second is still live. -/
theorem is_expired_strict_inequality (c : Cipher) (t : String) (now e : Int)
    (h : c.storage.getSettleExpiry (storageSettlementKey t) = .ok (some e)) :
    c.isExpired t now = .ok (decide (e < now)) ∧
      (c.isExpired t now = .ok true ↔ e < now) := by
  refine ⟨by simp [Cipher.isExpired, h], ?_⟩
  simp [Cipher.isExpired, h]

/-- Witness for C8 at a concrete settlement with expiry 100 and clock
101. -/
theorem is_expired_strict_inequality_witness :
    cipherC8.isExpired "aa" 101 = .ok (decide ((100 : Int) < 101)) ∧
      (cipherC8.isExpired "aa" 101 = .ok true ↔ (100 : Int) < 101) :=
  is_expired_strict_inequality cipherC8 "aa" 101 100 (by decide)

/-- Counterexample for C8 as stated: with a settlement whose expiry is
100 and the clock at 100 (`now ≥ expiry`), `is_expired` returns
`Ok(false)` — the code treats the session at its expiry second as still
live, not as already expired. -/
theorem is_expired_boundary_counterexample :
    cipherC8.isExpired "aa" 100 = .ok false ∧ (100 : Int) ≤ 100 := by
  decide

/-! ## C10: pairing() reflects the persisted store. -/

/-- C10.  `Cipher::pairing` is total and reflects the persisted store on
every call: it returns the stored record when present, and `None` both
when the record is absent and when the store read fails; with a cleared
store it returns `None` whatever the in-memory maps hold. -/
theorem pairing_reflects_persisted_store (c : Cipher) :
    (∀ p, c.storage.getPairing storagePairingKey = .ok (some p) → c.pairing = some p) ∧
    (c.storage.getPairing storagePairingKey = .ok none → c.pairing = none) ∧
    (∀ e, c.storage.getPairing storagePairingKey = .error e → c.pairing = none) ∧
    (∀ cs pm, (Cipher.mk cs pm (c.storage.clear)).pairing = none) := by
  refine ⟨?_, ?_, ?_, ?_⟩
  · intro p hp
    simp [Cipher.pairing, hp]
  · intro hp
    simp [Cipher.pairing, hp]
  · intro e hp
    simp [Cipher.pairing, hp]
  · intro cs pm
    simp [Cipher.pairing, Store.clear, Store.getPairing, Store.find]

/-- Witness for C10: a corrupt persisted pairing record (stored at the
wrong type) with a non-empty in-memory pairing map still yields
`pairing() = None`. -/
theorem pairing_reflects_persisted_store_witness : cipherC10.pairing = none :=
  (pairing_reflects_persisted_store cipherC10).2.2.1 () (by decide)

/-! ## C6: restoration with an expired settlement resets the store. -/

/-- The restoration loop of `Cipher::init` clears the store as soon as it
meets an expired session, provided the sessions before it restore without
error. -/
theorem initLoop_clears (key : List Nat) (now : Int) :
    ∀ (l : List String) (c : Cipher),
    (∀ s ∈ l, c.storage.getStr (storageSessionKey s) = .ok none ∨
      ∃ pk r, c.storage.getStr (storageSessionKey s) = .ok (some pk) ∧
        Cipher.deriveSymKey key pk = .ok r) →
    (∃ s ∈ l, ∃ e, c.storage.getSettleExpiry (storageSettlementKey s) = .ok (some e) ∧
      e < now) →
    ∃ c2, Cipher.initLoop key now c l = .ok c2 ∧ c2.storage = []
  | [], _, _, hexp => by simp at hexp
  | s :: rest, c, hok, hexp => by
    simp only [Cipher.initLoop]
    rcases hise : c.isExpired s now with m | b
    · -- store error while reading the settlement: treated as not expired
      simp only [hise]
      have hnext : ∃ s0 ∈ rest, ∃ e, c.storage.getSettleExpiry (storageSettlementKey s0) =
          .ok (some e) ∧ e < now := by
        obtain ⟨s0, hs0mem, e, hrec, helt⟩ := hexp
        rcases List.mem_cons.mp hs0mem with rfl | hmem
        · exfalso
          rw [Cipher.isExpired, hrec] at hise
          cases hise
        · exact ⟨s0, hmem, e, hrec, helt⟩
      rcases hok s (by simp) with hnone | ⟨pk, ⟨t0, ek⟩, hpk, hder⟩
      · simp only [hnone, if_neg (show ¬(false = true) from Bool.false_ne_true)]
        exact initLoop_clears key now rest c
          (fun x hx => hok x (by simp [hx])) hnext
      · simp only [hpk, hder, if_neg (show ¬(false = true) from Bool.false_ne_true)]
        exact initLoop_clears key now rest (c.register t0 ek)
          (fun x hx => hok x (by simp [hx])) hnext
    · cases b with
      | true =>
        exact ⟨{ c with storage := c.storage.clear }, by simp [hise], rfl⟩
      | false =>
        simp only [hise]
        have hnext : ∃ s0 ∈ rest, ∃ e, c.storage.getSettleExpiry (storageSettlementKey s0) =
            .ok (some e) ∧ e < now := by
          obtain ⟨s0, hs0mem, e, hrec, helt⟩ := hexp
          rcases List.mem_cons.mp hs0mem with rfl | hmem
          · exfalso
            rw [Cipher.isExpired, hrec] at hise
            simp [helt] at hise
          · exact ⟨s0, hmem, e, hrec, helt⟩
        rcases hok s (by simp) with hnone | ⟨pk, ⟨t0, ek⟩, hpk, hder⟩
        · simp only [hnone, if_neg (show ¬(false = true) from Bool.false_ne_true)]
          exact initLoop_clears key now rest c
            (fun x hx => hok x (by simp [hx])) hnext
        · simp only [hpk, hder, if_neg (show ¬(false = true) from Bool.false_ne_true)]
          exact initLoop_clears key now rest (c.register t0 ek)
            (fun x hx => hok x (by simp [hx])) hnext

/-- C6.  For a store holding a pairing and a sessions list with an
expired settlement (the other sessions restoring without error),
constructing a new `Cipher` from that store succeeds, the whole persisted
namespace is cleared, `pairing()` is `None` and `settlements()` is
empty. -/
theorem expired_settlement_restores_empty
    (st : Store) (p : Pairing) (l : List String) (now : Int)
    (hp : st.getPairing storagePairingKey = .ok (some p))
    (hl : st.getTopics storageSessionsKey = .ok (some l))
    (hok : ∀ s ∈ l, st.getStr (storageSessionKey s) = .ok none ∨
      ∃ pk r, st.getStr (storageSessionKey s) = .ok (some pk) ∧
        Cipher.deriveSymKey p.symKey pk = .ok r)
    (hexp : ∃ s ∈ l, ∃ e, st.getSettleExpiry (storageSettlementKey s) = .ok (some e) ∧
      e < now) :
    ∃ c, Cipher.new st now = .ok c ∧ c.pairing = none ∧ c.settlements = .ok [] := by
  simp only [Cipher.new, hp]
  have hpair : (Cipher.mk [] [(p.topic, p)] st).pairing = some p := by
    simp [Cipher.pairing, hp]
  simp only [Cipher.init, hpair, hl]
  obtain ⟨c2, hrun, hst⟩ := initLoop_clears p.symKey now l
    (Cipher.mk (assocInsert [] p.topic p.symKey) (assocInsert [(p.topic, p)] p.topic p) st)
    hok hexp
  refine ⟨c2, hrun, ?_, ?_⟩
  · simp [Cipher.pairing, Store.getPairing, Store.find, hst]
  · rw [Cipher.settlements]
    by_cases hmaps : c2.pairingMap = [] ∨ c2.ciphers = []
    · rw [if_pos hmaps]
    · rw [if_neg hmaps]
      have : c2.storage.getTopics storageSessionsKey = .ok none := by
        simp [Store.getTopics, Store.find, hst]
      rw [this]
      simp [Cipher.settlements.go]

/-- Witness for C6: a store with a pairing, one session topic and a
settlement expired at time 0, restored at time 1. -/
theorem expired_settlement_restores_empty_witness :
    ∃ c, Cipher.new storeC6 1 = .ok c ∧ c.pairing = none ∧ c.settlements = .ok [] :=
  expired_settlement_restores_empty storeC6 pairingA ["s1"] 1 (by decide) (by decide)
    (fun s hs => Or.inl (by rcases List.mem_singleton.mp hs with rfl; decide))
    ⟨"s1", by decide, 0, by decide, by decide⟩

/-! ## C9: unknown-error routing for pair requests. -/

/-- C9.  When the dispatch of a `wc_pairingExtend` request fails, the
router's unknown-error reply does carry `ErrorParams { code: 1, message:
"Unknown Error" }`, but `IntoUnknownError for PairExtendRequest` pairs it
with the `PairDelete` variant — not with the method of the original
request. -/
theorem pair_extend_unknown_error_mismatched (id : Nat) (t : String) (e : Nat) :
    handlePairMgrFailureReply id t (PairExtendRequest.mk e) =
      ⟨id, t, .err (.pairDelete ErrorParams.unknown)⟩ ∧
    ErrorParams.unknown = ⟨some 1, "Unknown Error"⟩ ∧
    ResponseParamsError.method (PairExtendRequest.unknown (PairExtendRequest.mk e)) ≠
      PairExtendRequest.method (PairExtendRequest.mk e) :=
  ⟨rfl, rfl, fun h => RpcMethod.noConfusion h⟩

/-! ## Lemmas: store lookups through set and filter, and output
lengths of the key derivation. -/

/-- Finding in a filtered store at a key the filter keeps. -/
theorem find_filter_ne (k1 k2 : String) (h : ¬ k2 = k1) :
    ∀ st : Store, Store.find (List.filter (fun e => ¬ (e.1 = k1)) st) k2 = Store.find st k2
  | [] => rfl
  | (k, v) :: rest => by
    rw [List.filter_cons]
    by_cases hk : k = k1
    · have hk2 : ¬ k = k2 := fun hc => h (hc.symm.trans hk)
      have hp : (decide ¬ ((k, v).1 = k1)) = false := by simp [hk]
      rw [hp]
      simp only [Bool.false_eq_true, if_false]
      rw [show Store.find ((k, v) :: rest) k2 = Store.find rest k2 from by
        simp [Store.find, hk2]]
      exact find_filter_ne k1 k2 h rest
    · have hp : (decide ¬ ((k, v).1 = k1)) = true := by simp [hk]
      rw [hp]
      simp only [if_true]
      by_cases hk2 : k = k2
      · simp [Store.find, hk2]
      · simp only [Store.find, if_neg hk2]
        exact find_filter_ne k1 k2 h rest

/-- Finding the key just set yields the new value. -/
theorem find_set_same (st : Store) (k : String) (v : StoredValue) :
    (st.set k v).find k = some v := by
  simp [Store.set, Store.find]

/-- Setting one key leaves lookups of other keys unchanged. -/
theorem find_set_other (st : Store) (k1 k2 : String) (v : StoredValue) (h : ¬ k2 = k1) :
    (st.set k1 v).find k2 = st.find k2 := by
  rw [show Store.set st k1 v =
    (k1, v) :: List.filter (fun e => ¬ (e.1 = k1)) st from rfl]
  rw [show Store.find ((k1, v) :: List.filter (fun e => ¬ (e.1 = k1)) st) k2 =
    Store.find (List.filter (fun e => ¬ (e.1 = k1)) st) k2 from by
    simp [Store.find, show ¬ k1 = k2 from fun hc => h hc.symm]]
  exact find_filter_ne k1 k2 h st

/-- Looking up the key just inserted in an association list. -/
theorem assocFind_insert_same {α : Type} (l : List (String × α)) (k : String) (v : α) :
    assocFind (assocInsert l k v) k = some v := by
  simp [assocInsert, assocFind]

/-- Flat-mapping 4-byte serializations multiplies the length by four. -/
theorem flatMap_word32BE_length : ∀ l : List Nat,
    (l.flatMap word32ToBytesBE).length = 4 * l.length
  | [] => rfl
  | x :: rest => by
    simp only [List.flatMap_cons, List.length_append, flatMap_word32BE_length rest,
      List.length_cons]
    simp [word32ToBytesBE]
    ring

/-- One SHA-256 compression yields an 8-word state. -/
theorem shaCompress_length (hs block : List Nat) : (shaCompress hs block).length = 8 := rfl

/-- Folding compressions over any block list keeps an 8-word state. -/
theorem foldl_shaCompress_length : ∀ (l : List (List Nat)) (hs : List Nat),
    hs.length = 8 → (l.foldl shaCompress hs).length = 8
  | [], _, h => h
  | b :: rest, hs, _ => by
    simp only [List.foldl_cons]
    exact foldl_shaCompress_length rest (shaCompress hs b) (shaCompress_length hs b)

/-- SHA-256 digests are 32 bytes. -/
theorem sha256_length (m : List Nat) : (sha256 m).length = 32 := by
  rw [sha256, flatMap_word32BE_length, foldl_shaCompress_length _ shaH0 rfl]

/-- Hex encoding doubles the length. -/
theorem hexEncode_length : ∀ l : List Nat, (hexEncode l).length = 2 * l.length
  | [] => rfl
  | x :: rest => by
    have ih := hexEncode_length rest
    simp only [hexEncode, List.flatMap_cons] at ih ⊢
    show (([hexDigits.getD (x / 16) '0', hexDigits.getD (x % 16) '0'] ++
      rest.flatMap (fun b => [hexDigits.getD (b / 16) '0', hexDigits.getD (b % 16) '0'])).length)
      = 2 * (rest.length + 1)
    rw [List.length_append]
    simp only [String.length] at ih
    simp only [List.length_cons, List.length_nil]
    omega

/-! ## Lemmas: create_common_topic. -/

/-- The successful branch of `derive_sym_key`: a 32-byte hex peer key
yields the HKDF-expanded key and its SHA-256-hex topic. -/
theorem deriveSymKey_ok (key : List Nat) (pk : String) (u : List Nat)
    (hu : hexDecode pk = some u) (hlen : u.length = 32) :
    Cipher.deriveSymKey key pk =
      .ok (hexEncode (sha256 (hkdfSha256 (x25519 key u))), hkdfSha256 (x25519 key u)) := by
  simp [Cipher.deriveSymKey, hu, hlen]

/-- The successful branch of `create_common_topic`, written out as the
resulting state: the sessions list is overwritten with the singleton of
the new topic, the controller key stored, and the AEAD registered. -/
theorem createCommonTopic_ok (c : Cipher) (key : List Nat) (pk t : String) (ek : List Nat)
    (hk : c.pairingKey = some key) (hd : Cipher.deriveSymKey key pk = .ok (t, ek)) :
    c.createCommonTopic pk = (.ok (t, x25519pub ek),
      { c with
        storage := (c.storage.set storageSessionsKey (.topics [t])).set
          (storageSessionKey t) (.str pk),
        ciphers := assocInsert c.ciphers t ek }) := by
  simp [Cipher.createCommonTopic, hk, hd, Cipher.updateSessions, Cipher.register]

/-- Inversion of a successful `create_common_topic`: the topic is the
hex SHA-256 of the derived key and the final state is the explicit
update. -/
theorem createCommonTopic_inv (c : Cipher) (pk t : String) (ek : List Nat) (c2 : Cipher)
    (h : c.createCommonTopic pk = (.ok (t, ek), c2)) :
    ∃ key u, c.pairingKey = some key ∧ hexDecode pk = some u ∧ u.length = 32 ∧
      t = hexEncode (sha256 (hkdfSha256 (x25519 key u))) ∧
      c2 = { c with
        storage := (c.storage.set storageSessionsKey (.topics [t])).set
          (storageSessionKey t) (.str pk),
        ciphers := assocInsert c.ciphers t (hkdfSha256 (x25519 key u)) } := by
  rcases hpk : c.pairingKey with _ | key
  · simp [Cipher.createCommonTopic, hpk] at h
  · rcases hu : hexDecode pk with _ | u
    · simp [Cipher.createCommonTopic, Cipher.deriveSymKey, hpk, hu] at h
    · by_cases hlen : u.length = 32
      · rw [createCommonTopic_ok c key pk (hexEncode (sha256 (hkdfSha256 (x25519 key u))))
          (hkdfSha256 (x25519 key u)) hpk (deriveSymKey_ok key pk u hu hlen)] at h
        have h1 := congrArg Prod.fst h
        have h2 := congrArg Prod.snd h
        simp only at h1 h2
        have ht : hexEncode (sha256 (hkdfSha256 (x25519 key u))) = t := by
          have := congrArg (fun x => match x with
            | Except.ok (p : String × List Nat) => p.1
            | Except.error _ => "") h1
          simpa using this
        refine ⟨key, u, rfl, rfl, hlen, ht.symm, ?_⟩
        rw [← h2, ht]
      · simp [Cipher.createCommonTopic, Cipher.deriveSymKey, hpk, hu, hlen] at h

/-- The topic returned by a successful `create_common_topic` is 64
characters of hex. -/
theorem createCommonTopic_topic_length (c : Cipher) (pk t : String) (ek : List Nat)
    (c2 : Cipher) (h : c.createCommonTopic pk = (.ok (t, ek), c2)) : t.length = 64 := by
  obtain ⟨key, u, _, _, _, ht, _⟩ := createCommonTopic_inv c pk t ek c2 h
  rw [ht, hexEncode_length, sha256_length]

/-- A 64-character topic's session-key record key differs from the
sessions-list key and the pairing key. -/
theorem storageSessionKey_ne (t : String) (ht : t.length = 64) :
    ¬ storageSessionKey t = storageSessionsKey ∧
      ¬ storageSessionKey t = storagePairingKey := by
  constructor
  · intro h
    have hL := congrArg String.length h
    rw [storageSessionKey, String.length_append, ht] at hL
    have h7 : ("crypto-").length = 7 := by decide
    have h15 : (storageSessionsKey).length = 15 := by decide
    rw [h7, h15] at hL
    omega
  · intro h
    have hL := congrArg String.length h
    rw [storageSessionKey, String.length_append, ht] at hL
    have h7 : ("crypto-").length = 7 := by decide
    have h19 : (storagePairingKey).length = 19 := by decide
    rw [h7, h19] at hL
    omega

/-- A successful `create_common_topic` does not disturb the persisted
pairing record. -/
theorem createCommonTopic_preserves_pairing (c : Cipher) (pk t : String) (ek : List Nat)
    (c2 : Cipher) (h : c.createCommonTopic pk = (.ok (t, ek), c2)) :
    c2.pairing = c.pairing := by
  obtain ⟨key, u, _, _, _, ht, hc2⟩ := createCommonTopic_inv c pk t ek c2 h
  have hlen : t.length = 64 := by rw [ht, hexEncode_length, sha256_length]
  obtain ⟨_, hne2⟩ := storageSessionKey_ne t hlen
  have hne3 : ¬ storagePairingKey = storageSessionKey t := fun hc => hne2 hc.symm
  have hne4 : ¬ storagePairingKey = storageSessionsKey := by decide
  subst hc2
  simp only [Cipher.pairing, Store.getPairing,
    find_set_other _ _ _ _ hne3, find_set_other _ _ _ _ hne4]

/-! ## C5: the sessions list is overwritten, not appended. -/

/-- C5.  After two successive successful `create_common_topic` calls the
persisted `crypto-sessions` list holds only the second derived topic:
`update_sessions` overwrites the list with `vec![topic]`, so the first
session topic is dropped rather than kept alongside the second. -/
theorem create_common_topic_overwrites_sessions
    (c : Cipher) (pk1 pk2 t1 t2 : String) (ek1 ek2 : List Nat) (c1 c2 : Cipher)
    (_h1 : c.createCommonTopic pk1 = (.ok (t1, ek1), c1))
    (h2 : c1.createCommonTopic pk2 = (.ok (t2, ek2), c2)) :
    c2.storage.getTopics storageSessionsKey = .ok (some [t2]) := by
  obtain ⟨key, u, _, _, _, ht2, hc2⟩ := createCommonTopic_inv c1 pk2 t2 ek2 c2 h2
  have hlen : t2.length = 64 := by rw [ht2, hexEncode_length, sha256_length]
  obtain ⟨hne1, _⟩ := storageSessionKey_ne t2 hlen
  have hne : ¬ storageSessionsKey = storageSessionKey t2 := fun hc => hne1 hc.symm
  subst hc2
  simp only [Store.getTopics, find_set_other _ _ _ _ hne, find_set_same]

/-- Witness for C5: two successive `create_common_topic` calls on a
cipher with an installed pairing, with distinct 32-byte controller keys;
the persisted sessions list ends up holding only the second topic. -/
theorem create_common_topic_overwrites_sessions_witness :
    ∃ t1 t2 : String, ∃ ek1 ek2 : List Nat, ∃ c1 c2 : Cipher,
      cipherW5.createCommonTopic pkHexA = (.ok (t1, ek1), c1) ∧
      c1.createCommonTopic pkHexB = (.ok (t2, ek2), c2) ∧
      c2.storage.getTopics storageSessionsKey = .ok (some [t2]) := by
  have hd1 := deriveSymKey_ok (List.replicate 32 9) pkHexA (List.replicate 32 17)
    (by decide) (by decide)
  have h1 := createCommonTopic_ok cipherW5 (List.replicate 32 9) pkHexA _ _ (by decide) hd1
  have hk2 := createCommonTopic_preserves_pairing cipherW5 pkHexA _ _ _ h1
  have hd2 := deriveSymKey_ok (List.replicate 32 9) pkHexB (List.replicate 32 34)
    (by decide) (by decide)
  have h2 := createCommonTopic_ok _ (List.replicate 32 9) pkHexB _ _
    (by rw [Cipher.pairingKey, hk2]; decide) hd2
  exact ⟨_, _, _, _, _, _, h1, h2,
    create_common_topic_overwrites_sessions _ _ _ _ _ _ _ _ _ h1 h2⟩

/-! ## C7: topic symmetry. -/

/-- C7 (amended).  Two peers holding the same pairing key `k` and
exchanging their advertised `public_key_hex` values (which are both the
X25519 public key of `k`, hence equal) derive identical session topics
and identical registered AEAD keys when each runs `create_common_topic`
on the other's key.  Symmetry holds because the controller keys coincide
— the ECDH scalar on both sides is the shared pairing key itself. -/
theorem create_common_topic_symmetric_for_shared_key
    (cA cB : Cipher) (k : List Nat) (pA pB : String)
    (hA : cA.pairingKey = some k) (hB : cB.pairingKey = some k)
    (hpA : cA.publicKeyHex = some pA) (hpB : cB.publicKeyHex = some pB) :
    pA = pB ∧
    (cA.createCommonTopic pB).1 = (cB.createCommonTopic pA).1 ∧
    (∀ t : String, ∀ ekA ekB : List Nat, ∀ cA2 cB2 : Cipher,
      cA.createCommonTopic pB = (.ok (t, ekA), cA2) →
      cB.createCommonTopic pA = (.ok (t, ekB), cB2) →
      assocFind cA2.ciphers t = assocFind cB2.ciphers t ∧
        assocFind cA2.ciphers t ≠ none) := by
  have hpubA : pA = hexEncode (x25519pub k) := by
    rcases hpa : cA.pairing with _ | p
    · rw [Cipher.pairingKey, hpa] at hA
      cases hA
    · rw [Cipher.pairingKey, hpa] at hA
      rw [Cipher.publicKeyHex, Cipher.publicKey, hpa] at hpA
      have hk : p.symKey = k := by simpa using hA
      have := hpA
      simp only [Option.map_some'] at this
      rw [← hk]
      exact (Option.some_injective _ this).symm
  have hpubB : pB = hexEncode (x25519pub k) := by
    rcases hpb : cB.pairing with _ | p
    · rw [Cipher.pairingKey, hpb] at hB
      cases hB
    · rw [Cipher.pairingKey, hpb] at hB
      rw [Cipher.publicKeyHex, Cipher.publicKey, hpb] at hpB
      have hk : p.symKey = k := by simpa using hB
      have := hpB
      simp only [Option.map_some'] at this
      rw [← hk]
      exact (Option.some_injective _ this).symm
  have hAB : pA = pB := hpubA.trans hpubB.symm
  subst hAB
  refine ⟨rfl, ?_, ?_⟩
  · simp only [Cipher.createCommonTopic, hA, hB]
    rcases hd : Cipher.deriveSymKey k pA with e | ⟨t, ek⟩
    · rfl
    · rfl
  · intro t ekA ekB cA2 cB2 h1 h2
    obtain ⟨k1, u1, hk1, hu1, _, _, hc1⟩ := createCommonTopic_inv cA pA t ekA cA2 h1
    obtain ⟨k2, u2, hk2, hu2, _, _, hc2⟩ := createCommonTopic_inv cB pA t ekB cB2 h2
    have hkk1 : k1 = k := by
      rw [hA] at hk1
      exact (Option.some_injective _ hk1).symm
    have hkk2 : k2 = k := by
      rw [hB] at hk2
      exact (Option.some_injective _ hk2).symm
    have huu : u1 = u2 := by
      rw [hu1] at hu2
      exact Option.some_injective _ hu2
    subst hc1
    subst hc2
    subst hkk1
    subst hkk2
    subst huu
    simp [assocFind_insert_same]

/-- Witness for C7 (amended) at two concrete peers sharing the pairing
key of 32 bytes of 9, each using the other's advertised public-key
hex. -/
theorem create_common_topic_symmetric_for_shared_key_witness :
    hexEncode (x25519pub (List.replicate 32 9)) = hexEncode (x25519pub (List.replicate 32 9)) ∧
    (cipherW5.createCommonTopic (hexEncode (x25519pub (List.replicate 32 9)))).1 =
      (cipherWB.createCommonTopic (hexEncode (x25519pub (List.replicate 32 9)))).1 ∧
    (∀ t : String, ∀ ekA ekB : List Nat, ∀ cA2 cB2 : Cipher,
      cipherW5.createCommonTopic (hexEncode (x25519pub (List.replicate 32 9))) =
        (.ok (t, ekA), cA2) →
      cipherWB.createCommonTopic (hexEncode (x25519pub (List.replicate 32 9))) =
        (.ok (t, ekB), cB2) →
      assocFind cA2.ciphers t = assocFind cB2.ciphers t ∧
        assocFind cA2.ciphers t ≠ none) :=
  create_common_topic_symmetric_for_shared_key cipherW5 cipherWB (List.replicate 32 9)
    (hexEncode (x25519pub (List.replicate 32 9))) (hexEncode (x25519pub (List.replicate 32 9)))
    (by decide) (by decide)
    (by rw [Cipher.publicKeyHex, Cipher.publicKey,
          show cipherW5.pairing = some pairingA from by decide]; rfl)
    (by rw [Cipher.publicKeyHex, Cipher.publicKey,
          show cipherWB.pairing = some pairingA from by decide]; rfl)

set_option maxRecDepth 7000 in
set_option maxHeartbeats 4000000 in
/-- Counterexample for C7 as stated: two peers sharing the pairing key of
32 bytes of 9, with two genuinely distinct X25519 key pairs (private
scalars of 32 bytes of 1 and of 2).  Peer A runs `create_common_topic`
on `pub_B` and peer B on `pub_A`; the derived session topics differ. -/
theorem topic_symmetry_fails_for_distinct_keys :
    ∃ pubA pubB : String,
      pubA = hexEncode (x25519pub (List.replicate 32 1)) ∧
      pubB = hexEncode (x25519pub (List.replicate 32 2)) ∧
      (cipherW5.createCommonTopic pubB).1 ≠ (cipherWB.createCommonTopic pubA).1 := by
  have eP1 : x25519pub (List.replicate 32 1) = [164, 224, 146, 146, 182, 81, 194, 120, 185, 119, 44, 86, 159, 95, 169, 187, 19, 217, 6, 180, 106, 182, 140, 157, 249, 220, 43, 68, 9, 248, 162, 9] := by decide
  have eP2 : x25519pub (List.replicate 32 2) = [206, 141, 58, 209, 204, 182, 51, 236, 123, 112, 193, 120, 20, 165, 199, 110, 205, 2, 150, 133, 5, 13, 52, 71, 69, 186, 5, 135, 14, 88, 125, 89] := by decide
  refine ⟨"a4e09292b651c278b9772c569f5fa9bb13d906b46ab68c9df9dc2b4409f8a209", "ce8d3ad1ccb633ec7b70c17814a5c76ecd029685050d344745ba05870e587d59", by rw [eP1]; decide, by rw [eP2]; decide, ?_⟩
  have huA : hexDecode "a4e09292b651c278b9772c569f5fa9bb13d906b46ab68c9df9dc2b4409f8a209" = some [164, 224, 146, 146, 182, 81, 194, 120, 185, 119, 44, 86, 159, 95, 169, 187, 19, 217, 6, 180, 106, 182, 140, 157, 249, 220, 43, 68, 9, 248, 162, 9] := by decide
  have huB : hexDecode "ce8d3ad1ccb633ec7b70c17814a5c76ecd029685050d344745ba05870e587d59" = some [206, 141, 58, 209, 204, 182, 51, 236, 123, 112, 193, 120, 20, 165, 199, 110, 205, 2, 150, 133, 5, 13, 52, 71, 69, 186, 5, 135, 14, 88, 125, 89] := by decide
  have exA : x25519 (List.replicate 32 9) [164, 224, 146, 146, 182, 81, 194, 120, 185, 119, 44, 86, 159, 95, 169, 187, 19, 217, 6, 180, 106, 182, 140, 157, 249, 220, 43, 68, 9, 248, 162, 9] = [99, 67, 117, 185, 31, 87, 222, 84, 123, 178, 78, 100, 117, 247, 248, 159, 178, 76, 186, 234, 212, 16, 2, 238, 1, 131, 98, 32, 144, 237, 89, 49] := by decide
  have exB : x25519 (List.replicate 32 9) [206, 141, 58, 209, 204, 182, 51, 236, 123, 112, 193, 120, 20, 165, 199, 110, 205, 2, 150, 133, 5, 13, 52, 71, 69, 186, 5, 135, 14, 88, 125, 89] = [185, 84, 85, 248, 5, 37, 160, 214, 164, 157, 25, 182, 109, 125, 40, 152, 111, 108, 198, 163, 251, 252, 70, 61, 7, 232, 50, 11, 137, 13, 70, 28] := by decide
  have epA : hmacSha256 (List.replicate 32 0) [99, 67, 117, 185, 31, 87, 222, 84, 123, 178, 78, 100, 117, 247, 248, 159, 178, 76, 186, 234, 212, 16, 2, 238, 1, 131, 98, 32, 144, 237, 89, 49] = [97, 236, 89, 154, 162, 141, 56, 88, 140, 188, 201, 57, 146, 18, 249, 228, 79, 162, 252, 228, 79, 107, 103, 35, 149, 63, 58, 83, 165, 215, 9, 246] := by decide
  have epB : hmacSha256 (List.replicate 32 0) [185, 84, 85, 248, 5, 37, 160, 214, 164, 157, 25, 182, 109, 125, 40, 152, 111, 108, 198, 163, 251, 252, 70, 61, 7, 232, 50, 11, 137, 13, 70, 28] = [255, 158, 37, 46, 104, 249, 137, 183, 180, 150, 73, 104, 252, 204, 195, 30, 97, 242, 4, 207, 218, 163, 69, 38, 16, 155, 153, 119, 161, 14, 246, 86] := by decide
  have eoA : hmacSha256 [97, 236, 89, 154, 162, 141, 56, 88, 140, 188, 201, 57, 146, 18, 249, 228, 79, 162, 252, 228, 79, 107, 103, 35, 149, 63, 58, 83, 165, 215, 9, 246] [1] = [120, 250, 164, 254, 12, 163, 128, 0, 178, 77, 33, 2, 92, 118, 185, 140, 198, 22, 30, 98, 89, 169, 104, 148, 201, 9, 84, 212, 127, 254, 5, 255] := by decide
  have eoB : hmacSha256 [255, 158, 37, 46, 104, 249, 137, 183, 180, 150, 73, 104, 252, 204, 195, 30, 97, 242, 4, 207, 218, 163, 69, 38, 16, 155, 153, 119, 161, 14, 246, 86] [1] = [13, 24, 31, 88, 244, 237, 194, 56, 193, 115, 215, 103, 62, 51, 208, 6, 206, 52, 109, 61, 75, 213, 197, 39, 121, 119, 137, 76, 30, 85, 50, 122] := by decide
  have ekA : hkdfSha256 [99, 67, 117, 185, 31, 87, 222, 84, 123, 178, 78, 100, 117, 247, 248, 159, 178, 76, 186, 234, 212, 16, 2, 238, 1, 131, 98, 32, 144, 237, 89, 49] = [120, 250, 164, 254, 12, 163, 128, 0, 178, 77, 33, 2, 92, 118, 185, 140, 198, 22, 30, 98, 89, 169, 104, 148, 201, 9, 84, 212, 127, 254, 5, 255] := by rw [hkdfSha256, epA, eoA]
  have ekB : hkdfSha256 [185, 84, 85, 248, 5, 37, 160, 214, 164, 157, 25, 182, 109, 125, 40, 152, 111, 108, 198, 163, 251, 252, 70, 61, 7, 232, 50, 11, 137, 13, 70, 28] = [13, 24, 31, 88, 244, 237, 194, 56, 193, 115, 215, 103, 62, 51, 208, 6, 206, 52, 109, 61, 75, 213, 197, 39, 121, 119, 137, 76, 30, 85, 50, 122] := by rw [hkdfSha256, epB, eoB]
  have edA : sha256 [120, 250, 164, 254, 12, 163, 128, 0, 178, 77, 33, 2, 92, 118, 185, 140, 198, 22, 30, 98, 89, 169, 104, 148, 201, 9, 84, 212, 127, 254, 5, 255] = [200, 227, 181, 188, 242, 167, 127, 49, 240, 172, 101, 250, 72, 231, 112, 33, 97, 56, 165, 65, 40, 122, 80, 94, 152, 158, 166, 247, 233, 182, 4, 231] := by decide
  have edB : sha256 [13, 24, 31, 88, 244, 237, 194, 56, 193, 115, 215, 103, 62, 51, 208, 6, 206, 52, 109, 61, 75, 213, 197, 39, 121, 119, 137, 76, 30, 85, 50, 122] = [228, 110, 70, 40, 182, 102, 140, 139, 197, 205, 118, 4, 50, 108, 246, 121, 216, 227, 126, 98, 10, 160, 68, 25, 28, 131, 251, 14, 52, 1, 58, 129] := by decide
  have ehA : hexEncode [200, 227, 181, 188, 242, 167, 127, 49, 240, 172, 101, 250, 72, 231, 112, 33, 97, 56, 165, 65, 40, 122, 80, 94, 152, 158, 166, 247, 233, 182, 4, 231] = "c8e3b5bcf2a77f31f0ac65fa48e770216138a541287a505e989ea6f7e9b604e7" := by decide
  have ehB : hexEncode [228, 110, 70, 40, 182, 102, 140, 139, 197, 205, 118, 4, 50, 108, 246, 121, 216, 227, 126, 98, 10, 160, 68, 25, 28, 131, 251, 14, 52, 1, 58, 129] = "e46e4628b6668c8bc5cd7604326cf679d8e37e620aa044191c83fb0e34013a81" := by decide
  have hdA := deriveSymKey_ok (List.replicate 32 9) "a4e09292b651c278b9772c569f5fa9bb13d906b46ab68c9df9dc2b4409f8a209" [164, 224, 146, 146, 182, 81, 194, 120, 185, 119, 44, 86, 159, 95, 169, 187, 19, 217, 6, 180, 106, 182, 140, 157, 249, 220, 43, 68, 9, 248, 162, 9] huA (by decide)
  rw [exA, ekA, edA, ehA] at hdA
  have hdB := deriveSymKey_ok (List.replicate 32 9) "ce8d3ad1ccb633ec7b70c17814a5c76ecd029685050d344745ba05870e587d59" [206, 141, 58, 209, 204, 182, 51, 236, 123, 112, 193, 120, 20, 165, 199, 110, 205, 2, 150, 133, 5, 13, 52, 71, 69, 186, 5, 135, 14, 88, 125, 89] huB (by decide)
  rw [exB, ekB, edB, ehB] at hdB
  have h2 := createCommonTopic_ok cipherW5 (List.replicate 32 9) "ce8d3ad1ccb633ec7b70c17814a5c76ecd029685050d344745ba05870e587d59" _ _ (by decide) hdB
  have h1 := createCommonTopic_ok cipherWB (List.replicate 32 9) "a4e09292b651c278b9772c569f5fa9bb13d906b46ab68c9df9dc2b4409f8a209" _ _ (by decide) hdA
  intro hcontra
  rw [h2, h1] at hcontra
  have hx : (Except.ok (("e46e4628b6668c8bc5cd7604326cf679d8e37e620aa044191c83fb0e34013a81" : String), x25519pub [13, 24, 31, 88, 244, 237, 194, 56, 193, 115, 215, 103, 62, 51, 208, 6, 206, 52, 109, 61, 75, 213, 197, 39, 121, 119, 137, 76, 30, 85, 50, 122]) :
      Except CipherError (String × List Nat)) = .ok ("c8e3b5bcf2a77f31f0ac65fa48e770216138a541287a505e989ea6f7e9b604e7", x25519pub [120, 250, 164, 254, 12, 163, 128, 0, 178, 77, 33, 2, 92, 118, 185, 140, 198, 22, 30, 98, 89, 169, 104, 148, 201, 9, 84, 212, 127, 254, 5, 255]) := hcontra
  injection hx with hp
  simp at hp
